import Mathlib

/-!
# ImageSteganography: bitmap reader and LSB decoder

A shallow embedding of `bitmap.c` and `decoder.c`.

Conventions of the embedding.

* C unsigned integers are natural numbers; every place where the C code
  converts to a fixed width carries an explicit `% 2 ^ w`.
* A `const uint8_t *` is a view of memory from the pointer onwards, a function
  from index to byte.  A buffer of `n` bytes constrains the indices below `n`
  only; what lies at the other indices is arbitrary.
* Storage that C leaves indeterminate (a local array before `fread`, a block
  returned by `malloc`) is a parameter, usually called `uninit`.
* The anonymous union inside `dibHeader_t` is kept as a record of its three
  members, so a store to one member does not show in the others.  Every
  function of the program selects the member named by `dibHeader.type` and
  touches no other, and no theorem that settles a claim says anything about a
  member other than the selected one after a store.
* `printf` output is not modelled; `malloc` and the variable-length array of
  `readDIBHeader` are assumed to obtain their storage whatever the size asked
  for; `long` is assumed wide enough for every 32-bit offset handed to `fseek`.
-/

namespace ImageSteganography

/-! ## bmpconstants.h -/

def BMPFILEHEADERSIZE : Nat := 14

def BM : Nat := 0x424D
def BA : Nat := 0x4D4C
def CI : Nat := 0x4349
def CP : Nat := 0x4350
def IC : Nat := 0x4943
def PT : Nat := 0x5054

def BITMAPCOREHEADER : Nat := 12
def OS22XBITMAPHEADER : Nat := 64
def OS22XBITMAPHEADER_S : Nat := 16
def BITMAPINFOHEADER : Nat := 40
def BITMAPV2INFOHEADER : Nat := 52
def BITMAPV3INFOHEADER : Nat := 56
def BITMAPV4HEADER : Nat := 108
def BITMAPV5HEADER : Nat := 124

def BI_RGB : Nat := 0

/-- The value a function declared `uint32_t` hands back for `return -1`. -/
def minusOne32 : Nat := 2 ^ 32 - 1

/-! ## bitmap.h -/

/-- Memory seen through a `uint8_t *`: the byte at each index. -/
abbrev Buffer := Nat → Nat

structure bmpFileHeader_t where
  signature : Nat
  file_size : Nat
  rsv0 : Nat
  rsv1 : Nat
  img_offset : Nat
deriving DecidableEq

structure bitMapCoreHeader_t where
  header_size : Nat
  bitmap_width : Nat
  bitmap_height : Nat
  color_planes : Nat
  bits_per_pixel : Nat
deriving DecidableEq

structure bitMapInfoHeader_t where
  header_size : Nat
  bitmap_width : Nat
  bitmap_height : Nat
  color_planes : Nat
  bits_per_pixel : Nat
  compression_method : Nat
  image_size : Nat
  horizontal_res : Nat
  vertical_res : Nat
  color_palette : Nat
  important_colors : Nat
deriving DecidableEq

structure os22xBitMapHeader_t where
  header_size : Nat
  bitmap_width : Nat
  bitmap_height : Nat
  color_planes : Nat
  bits_per_pixel : Nat
  compression_method : Nat
  image_size : Nat
  horizontal_res : Nat
  vertical_res : Nat
  color_palette : Nat
  important_colors : Nat
  units : Nat
  fill_direction : Nat
  halftoning_alg : Nat
  halftoning_param1 : Nat
  halftoning_param2 : Nat
  color_encoding : Nat
  app_id : Nat
deriving DecidableEq

/-- The members of the union `dibHeader_t.header`. -/
structure dibHeaderUnion where
  bitMapCoreHeader : bitMapCoreHeader_t
  bitMapInfoHeader : bitMapInfoHeader_t
  os22XBitMapHeader : os22xBitMapHeader_t
deriving DecidableEq

structure dibHeader_t where
  type : Nat
  header : dibHeaderUnion
deriving DecidableEq

/-- The struct `bitmap_t`; `color_table` is never assigned or read by the program. -/
structure bitmap_t where
  bmpFileHeader : bmpFileHeader_t
  dibHeader : dibHeader_t
  pixel_array : Buffer
  color_table : Buffer

/-! ## bitmap.c: the header parsers -/

/-- The expression `((uint16_t)buffer[i+1] << 8) | buffer[i]` stored into a `uint16_t`: the
shift and the or are done in `int`, the store truncates to 16 bits. -/
def read16 (buffer : Buffer) (i : Nat) : Nat :=
  (((buffer (i + 1)) <<< 8) ||| buffer i) % 2 ^ 16

/-- The expression `((uint32_t)buffer[i+3] << 24) | ((uint32_t)buffer[i+2] << 16) |
((uint16_t)buffer[i+1] << 8) | buffer[i]` stored into a `uint32_t`: the two upper shifts are
32-bit shifts. -/
def read32 (buffer : Buffer) (i : Nat) : Nat :=
  (((buffer (i + 3)) <<< 24) % 2 ^ 32 ||| ((buffer (i + 2)) <<< 16) % 2 ^ 32
    ||| ((buffer (i + 1)) <<< 8) ||| buffer i) % 2 ^ 32

/-- Embedding of `parseBMPFileHeader`: the five stores into `*bmpFileHeader`, then the returned
header size, where the source ors the four bytes without shifting them.  The result pairs the
return value with the struct after the stores. -/
def parseBMPFileHeader (buffer : Buffer) (bmpFileHeader : bmpFileHeader_t) :
    Nat × bmpFileHeader_t :=
  let bmpFileHeader := { bmpFileHeader with
    signature := (((buffer 0) <<< 8) ||| buffer 1) % 2 ^ 16 }
  let bmpFileHeader := { bmpFileHeader with file_size := read32 buffer 2 }
  let bmpFileHeader := { bmpFileHeader with rsv0 := read16 buffer 6 }
  let bmpFileHeader := { bmpFileHeader with rsv1 := read16 buffer 8 }
  let bmpFileHeader := { bmpFileHeader with img_offset := read32 buffer 10 }
  ((buffer 17 ||| buffer 16 ||| buffer 15 ||| buffer 14) % 2 ^ 32, bmpFileHeader)

/-- Embedding of `parseBITMAPCOREHEADER`. -/
def parseBITMAPCOREHEADER (buffer : Buffer) (dibHeader : dibHeader_t) : Nat × dibHeader_t :=
  let dibHeader := { dibHeader with type := BITMAPCOREHEADER }
  let core := dibHeader.header.bitMapCoreHeader
  let core := { core with header_size := BITMAPCOREHEADER }
  let core := { core with bitmap_width := read16 buffer 0 }
  let core := { core with bitmap_height := read16 buffer 2 }
  let core := { core with color_planes := read16 buffer 4 }
  let core := { core with bits_per_pixel := read16 buffer 6 }
  (1, { dibHeader with header := { dibHeader.header with bitMapCoreHeader := core } })

/-- Embedding of `parseBITMAPINFOHEADER`. -/
def parseBITMAPINFOHEADER (buffer : Buffer) (dibHeader : dibHeader_t) : Nat × dibHeader_t :=
  let dibHeader := { dibHeader with type := BITMAPINFOHEADER }
  let info := dibHeader.header.bitMapInfoHeader
  let info := { info with header_size := BITMAPINFOHEADER }
  let info := { info with bitmap_width := read32 buffer 0 }
  let info := { info with bitmap_height := read32 buffer 4 }
  let info := { info with color_planes := read16 buffer 8 }
  let info := { info with bits_per_pixel := read16 buffer 10 }
  let info := { info with compression_method := read32 buffer 12 }
  let info := { info with image_size := read32 buffer 16 }
  let info := { info with horizontal_res := read32 buffer 20 }
  let info := { info with vertical_res := read32 buffer 24 }
  let info := { info with color_palette := read32 buffer 28 }
  let info := { info with important_colors := read32 buffer 32 }
  (1, { dibHeader with header := { dibHeader.header with bitMapInfoHeader := info } })

/-- Embedding of `parseDIBHeader`: the switch on `dibHeaderSize + 4` (32-bit addition); every
label other than the first two falls to the `default` body, which prints and returns `-1`. -/
def parseDIBHeader (buffer : Buffer) (dibHeaderSize : Nat) (dibHeader : dibHeader_t) :
    Nat × dibHeader_t :=
  let sel := (dibHeaderSize + 4) % 2 ^ 32
  if sel = BITMAPCOREHEADER then parseBITMAPCOREHEADER buffer dibHeader
  else if sel = BITMAPINFOHEADER then parseBITMAPINFOHEADER buffer dibHeader
  else (minusOne32, dibHeader)

/-! ## The input stream -/

/-- A `FILE *` opened for reading: the bytes of the file and the read position. -/
structure FILE where
  data : List Nat
  pos : Nat
deriving DecidableEq

/-- A file freshly opened with `fopen`: positioned at its first byte. -/
def fopen (data : List Nat) : FILE := { data := data, pos := 0 }

/-- Model of `fread(ptr, 1, nmemb, stream)`: transfers the bytes available from the current
position, at most `nmemb` of them, into the front of `ptr`, leaves the rest of `ptr` as it was
and advances the position.  The result is the count, the storage and the stream. -/
def fread (ptr : Buffer) (nmemb : Nat) (stream : FILE) : Nat × Buffer × FILE :=
  let got := (stream.data.drop stream.pos).take nmemb
  (got.length, fun i => if i < got.length then got.getD i 0 else ptr i,
    { stream with pos := stream.pos + got.length })

/-- Model of `fseek(stream, offset, SEEK_SET)`. -/
def fseek (stream : FILE) (offset : Nat) : FILE := { stream with pos := offset }

/-! ## bitmap.c: the readers -/

/-- Embedding of `readBMPFileHeader`: `uninit` is the local array before the read; `r` is what
`fread` gives (count, array, stream), `p` what `parseBMPFileHeader` gives. -/
def readBMPFileHeader (bitmapFilePtr : FILE) (bmpFileHeader : bmpFileHeader_t)
    (uninit : Buffer) : Nat × FILE × bmpFileHeader_t :=
  let r := fread uninit (BMPFILEHEADERSIZE + 4) bitmapFilePtr
  if r.1 ≠ BMPFILEHEADERSIZE + 4 then (minusOne32, r.2.2, bmpFileHeader)
  else
    let p := parseBMPFileHeader r.2.1 bmpFileHeader
    (p.1, r.2.2, p.2)

/-- The 32-bit subtraction `a - b` of two values below `2 ^ 32`: it wraps around when `a` is the
smaller one. -/
def sub32 (a b : Nat) : Nat := if b ≤ a then a - b else 2 ^ 32 - (b - a)

/-- Embedding of `readDIBHeader`: `dibHeaderSize - 4` is a 32-bit subtraction; `uninit` is the
local array before the read; `r` is what `fread` gives (count, array, stream), `p` what
`parseDIBHeader` gives. -/
def readDIBHeader (bitmapFilePtr : FILE) (dibHeaderSize : Nat) (dibHeader : dibHeader_t)
    (uninit : Buffer) : Nat × FILE × dibHeader_t :=
  let r := fread uninit (sub32 dibHeaderSize 4) bitmapFilePtr
  if r.1 ≠ sub32 dibHeaderSize 4 then (minusOne32, r.2.2, dibHeader)
  else
    let p := parseDIBHeader r.2.1 (sub32 dibHeaderSize 4) dibHeader
    (p.1, r.2.2, p.2)

/-- Reduction of an integer to the range of a 32-bit `int` (two's complement). -/
def wrapInt32 (x : Int) : Int := (x + 2 ^ 31) % 2 ^ 32 - 2 ^ 31

/-- The switch of `readBitmapFile` that computes `pixel_array_size`; `none` is the `default`
body, which prints and returns 0.

For the core header the three operands are `uint16_t`, so C computes the whole expression in
`int` (truncating division) and converts the result to `uint32_t` at the store; an `int`
overflow is taken as wrapping.  For the info header `bitmap_width` is `uint32_t`, so the
expression is computed in 32-bit unsigned arithmetic. -/
def pixelArraySize (dibHeader : dibHeader_t) : Option Nat :=
  if dibHeader.type = BITMAPCOREHEADER then
    let h := dibHeader.header.bitMapCoreHeader
    let prod := wrapInt32 ((h.bits_per_pixel : Int) * (h.bitmap_width : Int))
    let rows := wrapInt32 (Int.tdiv (wrapInt32 (prod + 31)) 32 * 4)
    some (wrapInt32 (rows * (h.bitmap_height : Int)) % 2 ^ 32).toNat
  else if dibHeader.type = BITMAPINFOHEADER then
    let h := dibHeader.header.bitMapInfoHeader
    let prod := (h.bits_per_pixel * h.bitmap_width) % 2 ^ 32
    let rows := (((prod + 31) % 2 ^ 32) / 32 * 4) % 2 ^ 32
    some ((rows * h.bitmap_height) % 2 ^ 32)
  else none

/-- Embedding of `readBitmapFile`.  The result is the return value, the stream and the caller's
`bitmap_t` as the call leaves it.  `uninit` stands for the two local arrays before their reads
and for the block `malloc` returns; `r1` and `r2` are what the two header readers give (return
value, stream, header), `r3` what the final `fread` gives (count, block, stream). -/
def readBitmapFile (bitmapFilePtr : FILE) (bitmap : bitmap_t) (uninit : Buffer) :
    Nat × FILE × bitmap_t :=
  let r1 := readBMPFileHeader bitmapFilePtr bitmap.bmpFileHeader uninit
  let dibHeaderType := r1.1
  let bitmap := { bitmap with bmpFileHeader := r1.2.2 }
  if dibHeaderType = 0 then (0, r1.2.1, bitmap)
  else
    let r2 := readDIBHeader r1.2.1 dibHeaderType bitmap.dibHeader uninit
    let error := r2.1
    let bitmap := { bitmap with dibHeader := r2.2.2 }
    if error = 0 then (0, r2.2.1, bitmap)
    else
      match pixelArraySize bitmap.dibHeader with
      | none => (0, r2.2.1, bitmap)
      | some pixel_array_size =>
        let r3 := fread uninit pixel_array_size (fseek r2.2.1 bitmap.bmpFileHeader.img_offset)
        (1, r3.2.2, { bitmap with pixel_array := r3.2.1 })

/-! ## decoder.c -/

/-- Embedding of `isDecodeable`. -/
def isDecodeable (bitmap : bitmap_t) : Nat :=
  if bitmap.bmpFileHeader.signature ≠ BM then 0
  else if bitmap.dibHeader.type = BITMAPCOREHEADER then
    if bitmap.dibHeader.header.bitMapCoreHeader.color_planes ≠ 1 ∨
        bitmap.dibHeader.header.bitMapCoreHeader.bits_per_pixel ≠ 24 then 0
    else 1
  else if bitmap.dibHeader.type = BITMAPINFOHEADER then
    if bitmap.dibHeader.header.bitMapInfoHeader.color_planes ≠ 1 ∨
        bitmap.dibHeader.header.bitMapInfoHeader.bits_per_pixel ≠ 24 ∨
        bitmap.dibHeader.header.bitMapInfoHeader.compression_method ≠ BI_RGB ∨
        bitmap.dibHeader.header.bitMapInfoHeader.color_palette ≠ 0 then 0
    else 1
  else 0

/-- The first switch of `decodeMessage`: `some (byteCount, charCount)` for the two supported
headers, `none` where the function returns `NULL`.  `3 * width * height` is a 32-bit product. -/
def decodeCounts (dibHeader : dibHeader_t) : Option (Nat × Nat) :=
  if dibHeader.type = BITMAPCOREHEADER then
    let width := dibHeader.header.bitMapCoreHeader.bitmap_width
    let height := dibHeader.header.bitMapCoreHeader.bitmap_height
    let byteCount := (3 * width * height) % 2 ^ 32
    some (byteCount, byteCount / 8)
  else if dibHeader.type = BITMAPINFOHEADER then
    let width := dibHeader.header.bitMapInfoHeader.bitmap_width
    let height := dibHeader.header.bitMapInfoHeader.bitmap_height
    let byteCount := (3 * width * height) % 2 ^ 32
    some (byteCount, byteCount / 8)
  else none

/-- The variables of the decoding loop of `decodeMessage`, with the output block `str`. -/
structure DecodeState where
  str : List Nat
  tempChar : Nat
  cCounter : Nat
  bit : Nat
  bCounter : Nat
deriving DecidableEq

/-- One pass through the body of the `for` loop of `decodeMessage`, followed by its
`bCounter++`. -/
def decodeBody (pixel_array : Buffer) (s : DecodeState) : DecodeState :=
  let tempChar := (s.tempChar ||| ((pixel_array s.bCounter &&& 1) <<< s.bit)) % 2 ^ 8
  let bit := (s.bit + 1) % 2 ^ 8
  if bit > 7 then
    { str := s.str.set s.cCounter tempChar
      tempChar := 0
      cCounter := (s.cCounter + 1) % 2 ^ 32
      bit := 0
      bCounter := (s.bCounter + 1) % 2 ^ 32 }
  else
    { s with tempChar := tempChar, bit := bit, bCounter := (s.bCounter + 1) % 2 ^ 32 }

/-- The `for` loop of `decodeMessage`, run for at most `fuel` passes: `some` of the state in
which the loop condition fails, `none` when the passes are used up before that. -/
def decodeLoop (pixel_array : Buffer) (byteCount charCount : Nat) :
    Nat → DecodeState → Option DecodeState
  | 0, s => if s.bCounter < byteCount ∧ s.cCounter < charCount then none else some s
  | fuel + 1, s =>
    if s.bCounter < byteCount ∧ s.cCounter < charCount then
      decodeLoop pixel_array byteCount charCount fuel (decodeBody pixel_array s)
    else some s

/-- What `decodeMessage` hands back. -/
inductive DecodeResult where
  | null : DecodeResult
  | unfinished : DecodeResult
  | message (str : List Nat) : DecodeResult
deriving DecidableEq

/-- Embedding of `decodeMessage`.  `uninit` is the block of `charCount + 1` bytes as `malloc`
returns it; the result `message str` carries that whole block as the function leaves it,
`null` is the `NULL` return, and `unfinished` says that `byteCount` passes did not end the loop
(`decodeMessage_finishes` shows that this does not happen). -/
def decodeMessage (bitmap : bitmap_t) (uninit : Buffer) : DecodeResult :=
  match decodeCounts bitmap.dibHeader with
  | none => DecodeResult.null
  | some (byteCount, charCount) =>
    let str := ((List.range (charCount + 1)).map uninit).set charCount 0
    match decodeLoop bitmap.pixel_array byteCount charCount byteCount
        { str := str, tempChar := 0, cCounter := 0, bit := 0, bCounter := 0 } with
    | none => DecodeResult.unfinished
    | some s => DecodeResult.message s.str

/-- The state in which the `for` loop of `decodeMessage` ends, for the two supported headers:
the same switch, block and loop as in `decodeMessage`, with all the loop variables kept.  Its
`cCounter` is the number of stores `str[cCounter] = tempChar` made, its `bCounter` the number of
pixel bytes read. -/
def decodeFinalState (bitmap : bitmap_t) (uninit : Buffer) : Option DecodeState :=
  match decodeCounts bitmap.dibHeader with
  | none => none
  | some (byteCount, charCount) =>
    let str := ((List.range (charCount + 1)).map uninit).set charCount 0
    decodeLoop bitmap.pixel_array byteCount charCount byteCount
      { str := str, tempChar := 0, cCounter := 0, bit := 0, bCounter := 0 }

/-- The low bits of the pixel bytes `8 * k`, ..., `8 * k + n - 1` placed at the bit positions
0, ..., `n - 1`. -/
def packedBits (pixel_array : Buffer) (k : Nat) : Nat → Nat
  | 0 => 0
  | n + 1 => packedBits pixel_array k n + pixel_array (8 * k + n) % 2 * 2 ^ n

/-- The width that the first switch of `decodeMessage` takes from the header selected by
`type`. -/
def imageWidth (d : dibHeader_t) : Nat :=
  if d.type = BITMAPCOREHEADER then d.header.bitMapCoreHeader.bitmap_width
  else d.header.bitMapInfoHeader.bitmap_width

/-- The height that the first switch of `decodeMessage` takes from the header selected by
`type`. -/
def imageHeight (d : dibHeader_t) : Nat :=
  if d.type = BITMAPCOREHEADER then d.header.bitMapCoreHeader.bitmap_height
  else d.header.bitMapInfoHeader.bitmap_height

/-- The bits per pixel that the switch of `readBitmapFile` takes from the header selected by
`type`. -/
def imageBitsPerPixel (d : dibHeader_t) : Nat :=
  if d.type = BITMAPCOREHEADER then d.header.bitMapCoreHeader.bits_per_pixel
  else d.header.bitMapInfoHeader.bits_per_pixel

/-- The first value the arithmetic of `pixel_array_size` cannot hold: the three operands of a
core header are `uint16_t`, so the expression is computed in `int`; with an info header it is
computed in `uint32_t`. -/
def sizeArithBound (d : dibHeader_t) : Nat :=
  if d.type = BITMAPCOREHEADER then 2 ^ 31 else 2 ^ 32

/-- The invariant of the loop of `decodeMessage`: `cCounter` whole bytes are stored, `bit` bits
of the next one are packed in `tempChar`, and the terminator is still in place. -/
structure DecodeInv (pixel_array : Buffer) (charCount : Nat) (s : DecodeState) : Prop where
  pos : s.bCounter = 8 * s.cCounter + s.bit
  bit_lt : s.bit < 8
  count_le : s.cCounter ≤ charCount
  bit_zero : s.cCounter = charCount → s.bit = 0
  temp : s.tempChar = packedBits pixel_array s.cCounter s.bit
  len : s.str.length = charCount + 1
  stored : ∀ k, k < s.cCounter → s.str[k]? = some (packedBits pixel_array k 8)
  last : s.str[charCount]? = some 0

/-! ## Concrete inputs used by the instance checks -/

def zeroFileHeader : bmpFileHeader_t :=
  { signature := 0, file_size := 0, rsv0 := 0, rsv1 := 0, img_offset := 0 }

def zeroCoreHeader : bitMapCoreHeader_t :=
  { header_size := 0, bitmap_width := 0, bitmap_height := 0, color_planes := 0,
    bits_per_pixel := 0 }

def zeroInfoHeader : bitMapInfoHeader_t :=
  { header_size := 0, bitmap_width := 0, bitmap_height := 0, color_planes := 0,
    bits_per_pixel := 0, compression_method := 0, image_size := 0, horizontal_res := 0,
    vertical_res := 0, color_palette := 0, important_colors := 0 }

def zeroOs22xHeader : os22xBitMapHeader_t :=
  { header_size := 0, bitmap_width := 0, bitmap_height := 0, color_planes := 0,
    bits_per_pixel := 0, compression_method := 0, image_size := 0, horizontal_res := 0,
    vertical_res := 0, color_palette := 0, important_colors := 0, units := 0,
    fill_direction := 0, halftoning_alg := 0, halftoning_param1 := 0, halftoning_param2 := 0,
    color_encoding := 0, app_id := 0 }

def zeroDibHeader : dibHeader_t :=
  { type := 0,
    header := { bitMapCoreHeader := zeroCoreHeader, bitMapInfoHeader := zeroInfoHeader,
                os22XBitMapHeader := zeroOs22xHeader } }

/-- A `bitmap_t` whose storage is all zero bytes. -/
def zeroBitmap : bitmap_t :=
  { bmpFileHeader := zeroFileHeader, dibHeader := zeroDibHeader,
    pixel_array := fun _ => 0, color_table := fun _ => 0 }

/-- A list of bytes seen as a buffer; indices past the list read as zero. -/
def bufferOfList (bytes : List Nat) : Buffer := fun i => bytes.getD i 0

/-- Eighteen header bytes whose size field, bytes 14..17, is 00 01 00 00: the little-endian
number 256. -/
def sizeField256 : List Nat :=
  [0x42, 0x4D, 0, 0, 0, 0, 0, 0, 0, 0, 54, 0, 0, 0, 0, 1, 0, 0]

/-- The eight bytes after the size field of a core header: width 3, height 2, 1 colour plane,
24 bits per pixel. -/
def coreBytes : List Nat := [3, 0, 2, 0, 1, 0, 24, 0]

/-- The thirty-six bytes after the size field of an info header: width 2, height 1, 1 colour
plane, 24 bits per pixel, no compression, image size 8, resolution 2835 both ways, no palette,
no important colours. -/
def infoBytes : List Nat :=
  [2, 0, 0, 0, 1, 0, 0, 0, 1, 0, 24, 0, 0, 0, 0, 0, 8, 0, 0, 0,
   0x13, 0x0B, 0, 0, 0x13, 0x0B, 0, 0, 0, 0, 0, 0, 0, 0, 0, 0]

/-- A `dibHeader_t` that already holds an info header: 2 by 1, 1 plane, 24 bits per pixel. -/
def infoDibHeader : dibHeader_t :=
  { type := 40
    header :=
      { bitMapCoreHeader := zeroCoreHeader
        bitMapInfoHeader :=
          { header_size := 40, bitmap_width := 2, bitmap_height := 1, color_planes := 1,
            bits_per_pixel := 24, compression_method := 0, image_size := 8,
            horizontal_res := 2835, vertical_res := 2835, color_palette := 0,
            important_colors := 0 }
        os22XBitMapHeader := zeroOs22xHeader } }

/-- A whole file: the signature BM, pixel offset 54, an info header of declared size 40 (width 2,
height 1, 1 plane, 24 bits per pixel, no compression, no palette) and the 8 bytes of one padded
pixel row. -/
def infoFile : List Nat :=
  [0x42, 0x4D, 62, 0, 0, 0, 0, 0, 0, 0, 54, 0, 0, 0, 40, 0, 0, 0] ++ infoBytes
    ++ [1, 0, 1, 0, 1, 0, 0, 0]

/-- A file that declares the header size 16 (`OS22XBITMAPHEADER_S`): 14 bytes of file header,
the size field 10 00 00 00 and the twelve bytes that follow it. -/
def os2File : List Nat :=
  [0x42, 0x4D, 30, 0, 0, 0, 0, 0, 0, 0, 30, 0, 0, 0, 16, 0, 0, 0,
   2, 0, 0, 0, 1, 0, 0, 0, 1, 0, 24, 0]

/-- A caller's `bitmap_t` that still holds an info header (type 40) from earlier use. -/
def staleBitmap : bitmap_t := { zeroBitmap with dibHeader := infoDibHeader }

/-- The file `infoFile` without its pixel bytes: the 54 bytes of the two headers only. -/
def truncatedFile : List Nat := infoFile.take 54

/-- A 3 by 2 bitmap with an info header and 18 pixel bytes. -/
def sampleBitmap : bitmap_t :=
  { bmpFileHeader := { zeroFileHeader with signature := 0x424D, img_offset := 54 }
    dibHeader :=
      { type := 40
        header :=
          { bitMapCoreHeader := zeroCoreHeader
            bitMapInfoHeader :=
              { header_size := 40, bitmap_width := 3, bitmap_height := 2, color_planes := 1,
                bits_per_pixel := 24, compression_method := 0, image_size := 24,
                horizontal_res := 2835, vertical_res := 2835, color_palette := 0,
                important_colors := 0 }
            os22XBitMapHeader := zeroOs22xHeader } }
    pixel_array :=
      bufferOfList [0x01, 0x10, 0xFF, 0x00, 0x21, 0x42, 0x03, 0xFE,
                    0x01, 0x01, 0x33, 0x55, 0x00, 0x02, 0x04, 0x08, 0x01, 0x01]
    color_table := fun _ => 0 }

/-- An info header for a 40000 by 40000 image with 24 bits per pixel. -/
def largeDibHeader : dibHeader_t :=
  { type := 40
    header :=
      { bitMapCoreHeader := zeroCoreHeader
        bitMapInfoHeader :=
          { header_size := 40, bitmap_width := 40000, bitmap_height := 40000,
            color_planes := 1, bits_per_pixel := 24, compression_method := 0, image_size := 0,
            horizontal_res := 2835, vertical_res := 2835, color_palette := 0,
            important_colors := 0 }
        os22XBitMapHeader := zeroOs22xHeader } }

/-- A bitmap with the header `largeDibHeader`. -/
def largeBitmap : bitmap_t := { sampleBitmap with dibHeader := largeDibHeader }

/-- A `dibHeader_t` that holds a core header: 3 by 2, 1 plane, 24 bits per pixel. -/
def coreDibHeader : dibHeader_t :=
  { type := 12
    header :=
      { bitMapCoreHeader :=
          { header_size := 12, bitmap_width := 3, bitmap_height := 2, color_planes := 1,
            bits_per_pixel := 24 }
        bitMapInfoHeader := zeroInfoHeader
        os22XBitMapHeader := zeroOs22xHeader } }

/-- A bitmap whose info header holds the width `2 ^ 31` and the height 2, so that the 32-bit
product `3 * width * height` wraps to 0. -/
def wrapBitmap : bitmap_t :=
  { sampleBitmap with
    dibHeader :=
      { type := 40
        header :=
          { bitMapCoreHeader := zeroCoreHeader
            bitMapInfoHeader :=
              { header_size := 40, bitmap_width := 2147483648, bitmap_height := 2,
                color_planes := 1, bits_per_pixel := 24, compression_method := 0,
                image_size := 0, horizontal_res := 2835, vertical_res := 2835,
                color_palette := 0, important_colors := 0 }
            os22XBitMapHeader := zeroOs22xHeader } } }

/-- Eighteen pixel bytes with the same low bits as those of `sampleBitmap` at the indices
0..15, other upper bits everywhere, and other low bits at the indices 16 and 17. -/
def otherPixels : Buffer :=
  bufferOfList [0xFF, 0x00, 0x01, 0xFE, 0x81, 0x7E, 0x11, 0x00,
                0xFF, 0xFF, 0x01, 0x03, 0x80, 0x10, 0x20, 0xFE, 0x00, 0x00]

/-- The 3 by 2 bitmap `sampleBitmap` with pixel bytes 0x01, 0x00, 0x01, 0x00, ... -/
def alternatingBitmap : bitmap_t :=
  { sampleBitmap with pixel_array := fun i => if i % 2 = 0 then 1 else 0 }

/-- An 8 by 1 bitmap with an info header whose pixel bytes are all even: byte `i` is
`2 * i mod 256`. -/
def evenBitmap : bitmap_t :=
  { sampleBitmap with
    dibHeader :=
      { type := 40
        header :=
          { bitMapCoreHeader := zeroCoreHeader
            bitMapInfoHeader :=
              { header_size := 40, bitmap_width := 8, bitmap_height := 1, color_planes := 1,
                bits_per_pixel := 24, compression_method := 0, image_size := 24,
                horizontal_res := 2835, vertical_res := 2835, color_palette := 0,
                important_colors := 0 }
            os22XBitMapHeader := zeroOs22xHeader } }
    pixel_array := fun i => 2 * i % 256 }

/-- The 2 by 1 bitmap of the end-to-end scenario: signature BM, info header with 1 plane,
24 bits per pixel, no compression, no palette, and the six pixel bytes 01 00 00 00 00 01. -/
def tinyBitmap : bitmap_t :=
  { bmpFileHeader := { zeroFileHeader with signature := 0x424D, img_offset := 54 }
    dibHeader := infoDibHeader
    pixel_array := bufferOfList [0x01, 0x00, 0x00, 0x00, 0x00, 0x01]
    color_table := fun _ => 0 }

/-- The bitmap `tinyBitmap` with the signature `CI` in place of `BM`. -/
def ciBitmap : bitmap_t :=
  { tinyBitmap with bmpFileHeader := { tinyBitmap.bmpFileHeader with signature := CI } }

/-- Eighteen header bytes of a file with a core header: size field 0C 00 00 00. -/
def coreSizeField : List Nat :=
  [0x42, 0x4D, 50, 0, 0, 0, 0, 0, 0, 0, 26, 0, 0, 0, 12, 0, 0, 0]

/-- A file whose size field, bytes 14..17, is 08 04 00 00, the little-endian number 1032, whose
pixel offset is 26, and which goes on with the eight bytes `coreBytes` and 24 pixel bytes. -/
def orFile : List Nat :=
  [0x42, 0x4D, 50, 0, 0, 0, 0, 0, 0, 0, 26, 0, 0, 0, 8, 4, 0, 0] ++ coreBytes
    ++ [1, 0, 1, 0, 1, 0, 1, 0, 1, 1, 1, 1, 0, 0, 0, 0, 1, 1, 0, 0, 0, 0, 0, 0]

theorem shl_or_eq (i a b : Nat) (hb : b < 2 ^ i) : (a <<< i) ||| b = a * 2 ^ i + b := by
  rw [Nat.shiftLeft_eq, Nat.mul_comm a, ← Nat.mul_add_lt_is_or hb]

theorem or4_eq (b0 b1 b2 b3 : Nat) (h0 : b0 < 256) (h1 : b1 < 256) (h2 : b2 < 256) :
    b3 * 2 ^ 24 ||| b2 * 2 ^ 16 ||| b1 * 2 ^ 8 ||| b0
      = b0 + 256 * b1 + 65536 * b2 + 16777216 * b3 := by
  have e1 : b1 * 2 ^ 8 ||| b0 = b1 * 2 ^ 8 + b0 := by
    have := shl_or_eq 8 b1 b0 (by omega)
    rwa [Nat.shiftLeft_eq] at this
  have e2 : b2 * 2 ^ 16 ||| (b1 * 2 ^ 8 + b0) = b2 * 2 ^ 16 + (b1 * 2 ^ 8 + b0) := by
    have := shl_or_eq 16 b2 (b1 * 2 ^ 8 + b0) (by omega)
    rwa [Nat.shiftLeft_eq] at this
  have e3 : b3 * 2 ^ 24 ||| (b2 * 2 ^ 16 + (b1 * 2 ^ 8 + b0))
      = b3 * 2 ^ 24 + (b2 * 2 ^ 16 + (b1 * 2 ^ 8 + b0)) := by
    have := shl_or_eq 24 b3 (b2 * 2 ^ 16 + (b1 * 2 ^ 8 + b0)) (by omega)
    rwa [Nat.shiftLeft_eq] at this
  rw [Nat.or_assoc, Nat.or_assoc, e1, e2, e3]
  omega

theorem read16_eq (buffer : Buffer) (i : Nat) (h0 : buffer i < 256) (h1 : buffer (i + 1) < 256) :
    read16 buffer i = buffer i + 256 * buffer (i + 1) := by
  unfold read16
  rw [shl_or_eq 8 _ _ (by omega)]
  omega

theorem read32_eq (buffer : Buffer) (i : Nat) (h0 : buffer i < 256) (h1 : buffer (i + 1) < 256)
    (h2 : buffer (i + 2) < 256) (h3 : buffer (i + 3) < 256) :
    read32 buffer i = buffer i + 256 * buffer (i + 1) + 65536 * buffer (i + 2)
      + 16777216 * buffer (i + 3) := by
  unfold read32
  have e3 : (buffer (i + 3) <<< 24) % 2 ^ 32 = buffer (i + 3) * 2 ^ 24 := by
    rw [Nat.shiftLeft_eq]; omega
  have e2 : (buffer (i + 2) <<< 16) % 2 ^ 32 = buffer (i + 2) * 2 ^ 16 := by
    rw [Nat.shiftLeft_eq]; omega
  rw [e3, e2, Nat.shiftLeft_eq, or4_eq _ _ _ _ h0 h1 h2]
  omega

/-- The big-endian pair of the signature. -/
theorem signature_eq (b0 b1 : Nat) (h0 : b0 < 256) (h1 : b1 < 256) :
    ((b0 <<< 8) ||| b1) % 2 ^ 16 = b0 * 256 + b1 := by
  rw [shl_or_eq 8 _ _ (by omega)]
  omega

/-! ## Which bytes the parsers look at -/

theorem read16_congr (b1 b2 : Buffer) (i : Nat) (h0 : b1 i = b2 i) (h1 : b1 (i + 1) = b2 (i + 1)) :
    read16 b1 i = read16 b2 i := by
  unfold read16; rw [h0, h1]

theorem read32_congr (b1 b2 : Buffer) (i : Nat) (h0 : b1 i = b2 i) (h1 : b1 (i + 1) = b2 (i + 1))
    (h2 : b1 (i + 2) = b2 (i + 2)) (h3 : b1 (i + 3) = b2 (i + 3)) :
    read32 b1 i = read32 b2 i := by
  unfold read32; rw [h0, h1, h2, h3]

theorem parseBMPFileHeader_congr (b1 b2 : Buffer) (h : bmpFileHeader_t)
    (hagree : ∀ i, i < 18 → b1 i = b2 i) :
    parseBMPFileHeader b1 h = parseBMPFileHeader b2 h := by
  unfold parseBMPFileHeader
  simp only [read32_congr b1 b2 2 (hagree _ (by omega)) (hagree _ (by omega))
      (hagree _ (by omega)) (hagree _ (by omega)),
    read32_congr b1 b2 10 (hagree _ (by omega)) (hagree _ (by omega))
      (hagree _ (by omega)) (hagree _ (by omega)),
    read16_congr b1 b2 6 (hagree _ (by omega)) (hagree _ (by omega)),
    read16_congr b1 b2 8 (hagree _ (by omega)) (hagree _ (by omega)),
    hagree 0 (by omega), hagree 1 (by omega), hagree 14 (by omega), hagree 15 (by omega),
    hagree 16 (by omega), hagree 17 (by omega)]

theorem parseBITMAPCOREHEADER_congr (b1 b2 : Buffer) (d : dibHeader_t)
    (hagree : ∀ i, i < 8 → b1 i = b2 i) :
    parseBITMAPCOREHEADER b1 d = parseBITMAPCOREHEADER b2 d := by
  unfold parseBITMAPCOREHEADER
  simp only [read16_congr b1 b2 0 (hagree _ (by omega)) (hagree _ (by omega)),
    read16_congr b1 b2 2 (hagree _ (by omega)) (hagree _ (by omega)),
    read16_congr b1 b2 4 (hagree _ (by omega)) (hagree _ (by omega)),
    read16_congr b1 b2 6 (hagree _ (by omega)) (hagree _ (by omega))]

theorem parseBITMAPINFOHEADER_congr (b1 b2 : Buffer) (d : dibHeader_t)
    (hagree : ∀ i, i < 36 → b1 i = b2 i) :
    parseBITMAPINFOHEADER b1 d = parseBITMAPINFOHEADER b2 d := by
  unfold parseBITMAPINFOHEADER
  simp only [read16_congr b1 b2 8 (hagree _ (by omega)) (hagree _ (by omega)),
    read16_congr b1 b2 10 (hagree _ (by omega)) (hagree _ (by omega)),
    read32_congr b1 b2 0 (hagree _ (by omega)) (hagree _ (by omega))
      (hagree _ (by omega)) (hagree _ (by omega)),
    read32_congr b1 b2 4 (hagree _ (by omega)) (hagree _ (by omega))
      (hagree _ (by omega)) (hagree _ (by omega)),
    read32_congr b1 b2 12 (hagree _ (by omega)) (hagree _ (by omega))
      (hagree _ (by omega)) (hagree _ (by omega)),
    read32_congr b1 b2 16 (hagree _ (by omega)) (hagree _ (by omega))
      (hagree _ (by omega)) (hagree _ (by omega)),
    read32_congr b1 b2 20 (hagree _ (by omega)) (hagree _ (by omega))
      (hagree _ (by omega)) (hagree _ (by omega)),
    read32_congr b1 b2 24 (hagree _ (by omega)) (hagree _ (by omega))
      (hagree _ (by omega)) (hagree _ (by omega)),
    read32_congr b1 b2 28 (hagree _ (by omega)) (hagree _ (by omega))
      (hagree _ (by omega)) (hagree _ (by omega)),
    read32_congr b1 b2 32 (hagree _ (by omega)) (hagree _ (by omega))
      (hagree _ (by omega)) (hagree _ (by omega))]

theorem parseDIBHeader_eight (buffer : Buffer) (d : dibHeader_t) :
    parseDIBHeader buffer 8 d = parseBITMAPCOREHEADER buffer d := by
  simp [parseDIBHeader, BITMAPCOREHEADER]

theorem parseDIBHeader_thirtysix (buffer : Buffer) (d : dibHeader_t) :
    parseDIBHeader buffer 36 d = parseBITMAPINFOHEADER buffer d := by
  simp [parseDIBHeader, BITMAPCOREHEADER, BITMAPINFOHEADER]

theorem parseDIBHeader_other (buffer : Buffer) (n : Nat) (d : dibHeader_t)
    (h12 : (n + 4) % 2 ^ 32 ≠ 12) (h40 : (n + 4) % 2 ^ 32 ≠ 40) :
    parseDIBHeader buffer n d = (minusOne32, d) := by
  have e12 : ¬ (n + 4) % 4294967296 = 12 := by simpa using h12
  have e40 : ¬ (n + 4) % 4294967296 = 40 := by simpa using h40
  simp [parseDIBHeader, BITMAPCOREHEADER, BITMAPINFOHEADER, e12, e40]

/-! ## The file header -/

/-- C3: for a buffer whose first 14 entries are bytes (nothing is asked of what follows them),
`parseBMPFileHeader` stores the big-endian pair of bytes 0..1 as the signature and the
little-endian values of bytes 2..5, 6..7, 8..9 and 10..13 as file size, the two reserved fields
and the pixel offset. -/
theorem parseBMPFileHeader_fields (buffer : Buffer) (bmpFileHeader : bmpFileHeader_t)
    (hbytes : ∀ i, i < 14 → buffer i < 256) :
    (parseBMPFileHeader buffer bmpFileHeader).2 =
      { signature := buffer 0 * 256 + buffer 1
        file_size := buffer 2 + 256 * buffer 3 + 65536 * buffer 4 + 16777216 * buffer 5
        rsv0 := buffer 6 + 256 * buffer 7
        rsv1 := buffer 8 + 256 * buffer 9
        img_offset :=
          buffer 10 + 256 * buffer 11 + 65536 * buffer 12 + 16777216 * buffer 13 } := by
  unfold parseBMPFileHeader
  simp only [signature_eq _ _ (hbytes 0 (by omega)) (hbytes 1 (by omega)),
    read32_eq buffer 2 (hbytes _ (by omega)) (hbytes _ (by omega)) (hbytes _ (by omega))
      (hbytes _ (by omega)),
    read32_eq buffer 10 (hbytes _ (by omega)) (hbytes _ (by omega)) (hbytes _ (by omega))
      (hbytes _ (by omega)),
    read16_eq buffer 6 (hbytes _ (by omega)) (hbytes _ (by omega)),
    read16_eq buffer 8 (hbytes _ (by omega)) (hbytes _ (by omega))]

/-- Instance of C3 at the two extremes: fourteen bytes 0xFF give the largest value of every
field, fourteen bytes 0x00 give zero in every field. -/
theorem parseBMPFileHeader_fields_witness :
    (∀ i, i < 14 → (fun _ => 255 : Buffer) i < 256) ∧
    (parseBMPFileHeader (fun _ => 255) zeroFileHeader).2 =
      { signature := 0xFFFF, file_size := 0xFFFFFFFF, rsv0 := 0xFFFF, rsv1 := 0xFFFF,
        img_offset := 0xFFFFFFFF } ∧
    (parseBMPFileHeader (fun _ => 0) zeroFileHeader).2 =
      { signature := 0, file_size := 0, rsv0 := 0, rsv1 := 0, img_offset := 0 } :=
  ⟨fun _ _ => Nat.lt_succ_self 255,
   parseBMPFileHeader_fields (fun _ => 255) zeroFileHeader (fun _ _ => Nat.lt_succ_self 255),
   parseBMPFileHeader_fields (fun _ => 0) zeroFileHeader (fun _ _ => Nat.succ_pos 255)⟩

/-- C4, evaluated: on eighteen bytes whose size field is 00 01 00 00 the little-endian value
is 256, yet `parseBMPFileHeader` returns 1, because the four bytes are or-ed without shifts. -/
theorem parseBMPFileHeader_size_not_little_endian :
    (parseBMPFileHeader (bufferOfList sizeField256) zeroFileHeader).1 = 1 ∧
    bufferOfList sizeField256 14 + 256 * bufferOfList sizeField256 15
      + 65536 * bufferOfList sizeField256 16 + 16777216 * bufferOfList sizeField256 17 = 256 := by
  decide

/-! ## The DIB header -/

/-- C5: called with `dibHeaderSize = 8` (declared size 12) on a buffer whose eight entries are
bytes, `parseDIBHeader` returns 1 and leaves a core header (type 12, header size 12) whose
width, height, colour planes and bits per pixel are the little-endian 16-bit values at offsets
0, 2, 4 and 6; and any buffer with the same entries at the indices 0..7 gives the same result,
so nothing above index 7 is looked at. -/
theorem parseDIBHeader_core_header (buffer : Buffer) (dibHeader : dibHeader_t)
    (hbytes : ∀ i, i < 8 → buffer i < 256) :
    (parseDIBHeader buffer 8 dibHeader).1 = 1 ∧
    (parseDIBHeader buffer 8 dibHeader).2.type = 12 ∧
    (parseDIBHeader buffer 8 dibHeader).2.header.bitMapCoreHeader =
      { header_size := 12
        bitmap_width := buffer 0 + 256 * buffer 1
        bitmap_height := buffer 2 + 256 * buffer 3
        color_planes := buffer 4 + 256 * buffer 5
        bits_per_pixel := buffer 6 + 256 * buffer 7 } ∧
    ∀ other : Buffer, (∀ i, i < 8 → other i = buffer i) →
      parseDIBHeader other 8 dibHeader = parseDIBHeader buffer 8 dibHeader := by
  refine ⟨?_, ?_, ?_, ?_⟩
  · rw [parseDIBHeader_eight]; rfl
  · rw [parseDIBHeader_eight]; rfl
  · rw [parseDIBHeader_eight]
    unfold parseBITMAPCOREHEADER
    simp only [read16_eq buffer 0 (hbytes _ (by omega)) (hbytes _ (by omega)),
      read16_eq buffer 2 (hbytes _ (by omega)) (hbytes _ (by omega)),
      read16_eq buffer 4 (hbytes _ (by omega)) (hbytes _ (by omega)),
      read16_eq buffer 6 (hbytes _ (by omega)) (hbytes _ (by omega)), BITMAPCOREHEADER]
  · intro other hagree
    rw [parseDIBHeader_eight, parseDIBHeader_eight]
    exact parseBITMAPCOREHEADER_congr other buffer dibHeader hagree

/-- Instance of C5: the eight bytes of a 3 by 2 core header with 1 plane and 24 bits per
pixel, parsed into a `dibHeader_t` that held an info header. -/
theorem parseDIBHeader_core_header_witness :
    (∀ i, i < 8 → bufferOfList coreBytes i < 256) ∧
    (parseDIBHeader (bufferOfList coreBytes) 8 infoDibHeader).1 = 1 ∧
    (parseDIBHeader (bufferOfList coreBytes) 8 infoDibHeader).2.type = 12 ∧
    (parseDIBHeader (bufferOfList coreBytes) 8 infoDibHeader).2.header.bitMapCoreHeader =
      { header_size := 12, bitmap_width := 3, bitmap_height := 2, color_planes := 1,
        bits_per_pixel := 24 } :=
  ⟨by decide,
   (parseDIBHeader_core_header (bufferOfList coreBytes) infoDibHeader (by decide)).1,
   (parseDIBHeader_core_header (bufferOfList coreBytes) infoDibHeader (by decide)).2.1,
   (parseDIBHeader_core_header (bufferOfList coreBytes) infoDibHeader (by decide)).2.2.1⟩

/-- The info header that `parseBITMAPINFOHEADER` leaves, in arithmetic form. -/
theorem parseBITMAPINFOHEADER_eq (buffer : Buffer) (dibHeader : dibHeader_t)
    (hbytes : ∀ i, i < 36 → buffer i < 256) :
    parseBITMAPINFOHEADER buffer dibHeader =
      (1, { type := 40
            header := { dibHeader.header with
              bitMapInfoHeader :=
                { header_size := 40
                  bitmap_width :=
                    buffer 0 + 256 * buffer 1 + 65536 * buffer 2 + 16777216 * buffer 3
                  bitmap_height :=
                    buffer 4 + 256 * buffer 5 + 65536 * buffer 6 + 16777216 * buffer 7
                  color_planes := buffer 8 + 256 * buffer 9
                  bits_per_pixel := buffer 10 + 256 * buffer 11
                  compression_method :=
                    buffer 12 + 256 * buffer 13 + 65536 * buffer 14 + 16777216 * buffer 15
                  image_size :=
                    buffer 16 + 256 * buffer 17 + 65536 * buffer 18 + 16777216 * buffer 19
                  horizontal_res :=
                    buffer 20 + 256 * buffer 21 + 65536 * buffer 22 + 16777216 * buffer 23
                  vertical_res :=
                    buffer 24 + 256 * buffer 25 + 65536 * buffer 26 + 16777216 * buffer 27
                  color_palette :=
                    buffer 28 + 256 * buffer 29 + 65536 * buffer 30 + 16777216 * buffer 31
                  important_colors :=
                    buffer 32 + 256 * buffer 33 + 65536 * buffer 34 + 16777216 * buffer 35 } } }) := by
  unfold parseBITMAPINFOHEADER
  simp only [read16_eq buffer 8 (hbytes _ (by omega)) (hbytes _ (by omega)),
    read16_eq buffer 10 (hbytes _ (by omega)) (hbytes _ (by omega)),
    read32_eq buffer 0 (hbytes _ (by omega)) (hbytes _ (by omega)) (hbytes _ (by omega))
      (hbytes _ (by omega)),
    read32_eq buffer 4 (hbytes _ (by omega)) (hbytes _ (by omega)) (hbytes _ (by omega))
      (hbytes _ (by omega)),
    read32_eq buffer 12 (hbytes _ (by omega)) (hbytes _ (by omega)) (hbytes _ (by omega))
      (hbytes _ (by omega)),
    read32_eq buffer 16 (hbytes _ (by omega)) (hbytes _ (by omega)) (hbytes _ (by omega))
      (hbytes _ (by omega)),
    read32_eq buffer 20 (hbytes _ (by omega)) (hbytes _ (by omega)) (hbytes _ (by omega))
      (hbytes _ (by omega)),
    read32_eq buffer 24 (hbytes _ (by omega)) (hbytes _ (by omega)) (hbytes _ (by omega))
      (hbytes _ (by omega)),
    read32_eq buffer 28 (hbytes _ (by omega)) (hbytes _ (by omega)) (hbytes _ (by omega))
      (hbytes _ (by omega)),
    read32_eq buffer 32 (hbytes _ (by omega)) (hbytes _ (by omega)) (hbytes _ (by omega))
      (hbytes _ (by omega)), BITMAPINFOHEADER]

/-- Changing one byte of an info header changes what `parseBITMAPINFOHEADER` leaves: each of the
thirty-six indices is looked at. -/
theorem parseBITMAPINFOHEADER_sensitive (buffer : Buffer) (dibHeader : dibHeader_t)
    (hbytes : ∀ i, i < 36 → buffer i < 256) (j : Nat) (hj : j < 36) (v : Nat) (hv : v < 256)
    (hne : v ≠ buffer j) :
    parseBITMAPINFOHEADER (Function.update buffer j v) dibHeader
      ≠ parseBITMAPINFOHEADER buffer dibHeader := by
  have hother : ∀ i, i < 36 → Function.update buffer j v i < 256 := by
    intro i hi
    by_cases hij : i = j
    · subst hij
      rw [Function.update_same]
      exact hv
    · rw [Function.update_noteq hij]
      exact hbytes i hi
  intro heq
  rw [parseBITMAPINFOHEADER_eq _ _ hother, parseBITMAPINFOHEADER_eq _ _ hbytes] at heq
  simp only [Prod.mk.injEq, dibHeader_t.mk.injEq, dibHeaderUnion.mk.injEq,
    bitMapInfoHeader_t.mk.injEq, true_and, and_true] at heq
  obtain ⟨e0, e1, e2, e3, e4, e5, e6, e7, e8, e9⟩ := heq
  interval_cases j <;> simp [Function.update] at e0 e1 e2 e3 e4 e5 e6 e7 e8 e9 <;> omega

/-- C6: called with `dibHeaderSize = 36` (declared size 40) on a buffer whose thirty-six
entries are bytes, `parseDIBHeader` returns 1 and leaves an info header (type 40, header size
40) whose ten fields are the little-endian values at offsets 0, 4, 8, 10, 12, 16, 20, 24, 28
and 32.  The indices looked at are exactly 0..35: a buffer with the same entries there gives the
same result, and replacing the byte at any one of them by a different byte changes the
result. -/
theorem parseDIBHeader_info_header (buffer : Buffer) (dibHeader : dibHeader_t)
    (hbytes : ∀ i, i < 36 → buffer i < 256) :
    (parseDIBHeader buffer 36 dibHeader).1 = 1 ∧
    (parseDIBHeader buffer 36 dibHeader).2.type = 40 ∧
    (parseDIBHeader buffer 36 dibHeader).2.header.bitMapInfoHeader =
      { header_size := 40
        bitmap_width := buffer 0 + 256 * buffer 1 + 65536 * buffer 2 + 16777216 * buffer 3
        bitmap_height := buffer 4 + 256 * buffer 5 + 65536 * buffer 6 + 16777216 * buffer 7
        color_planes := buffer 8 + 256 * buffer 9
        bits_per_pixel := buffer 10 + 256 * buffer 11
        compression_method :=
          buffer 12 + 256 * buffer 13 + 65536 * buffer 14 + 16777216 * buffer 15
        image_size := buffer 16 + 256 * buffer 17 + 65536 * buffer 18 + 16777216 * buffer 19
        horizontal_res :=
          buffer 20 + 256 * buffer 21 + 65536 * buffer 22 + 16777216 * buffer 23
        vertical_res := buffer 24 + 256 * buffer 25 + 65536 * buffer 26 + 16777216 * buffer 27
        color_palette := buffer 28 + 256 * buffer 29 + 65536 * buffer 30 + 16777216 * buffer 31
        important_colors :=
          buffer 32 + 256 * buffer 33 + 65536 * buffer 34 + 16777216 * buffer 35 } ∧
    (∀ other : Buffer, (∀ i, i < 36 → other i = buffer i) →
      parseDIBHeader other 36 dibHeader = parseDIBHeader buffer 36 dibHeader) ∧
    (∀ j v, j < 36 → v < 256 → v ≠ buffer j →
      parseDIBHeader (Function.update buffer j v) 36 dibHeader
        ≠ parseDIBHeader buffer 36 dibHeader) := by
  refine ⟨?_, ?_, ?_, ?_, ?_⟩
  · rw [parseDIBHeader_thirtysix]; rfl
  · rw [parseDIBHeader_thirtysix]; rfl
  · rw [parseDIBHeader_thirtysix, parseBITMAPINFOHEADER_eq buffer dibHeader hbytes]
  · intro other hagree
    rw [parseDIBHeader_thirtysix, parseDIBHeader_thirtysix]
    exact parseBITMAPINFOHEADER_congr other buffer dibHeader hagree
  · intro j v hj hv hne
    rw [parseDIBHeader_thirtysix, parseDIBHeader_thirtysix]
    exact parseBITMAPINFOHEADER_sensitive buffer dibHeader hbytes j hj v hv hne

/-- Instance of C6: the thirty-six bytes of a 2 by 1 info header with 1 plane and 24 bits per
pixel. -/
theorem parseDIBHeader_info_header_witness :
    (∀ i, i < 36 → bufferOfList infoBytes i < 256) ∧
    (parseDIBHeader (bufferOfList infoBytes) 36 zeroDibHeader).1 = 1 ∧
    (parseDIBHeader (bufferOfList infoBytes) 36 zeroDibHeader).2.type = 40 ∧
    (parseDIBHeader (bufferOfList infoBytes) 36 zeroDibHeader).2.header.bitMapInfoHeader =
      { header_size := 40, bitmap_width := 2, bitmap_height := 1, color_planes := 1,
        bits_per_pixel := 24, compression_method := 0, image_size := 8,
        horizontal_res := 2835, vertical_res := 2835, color_palette := 0,
        important_colors := 0 } :=
  ⟨by decide,
   (parseDIBHeader_info_header (bufferOfList infoBytes) zeroDibHeader (by decide)).1,
   (parseDIBHeader_info_header (bufferOfList infoBytes) zeroDibHeader (by decide)).2.1,
   (parseDIBHeader_info_header (bufferOfList infoBytes) zeroDibHeader (by decide)).2.2.1⟩

/-- C7: for a declared size other than 12 and 40, `parseDIBHeader` (called with the declared
size less 4, as `readDIBHeader` does) returns a value other than 1, returns the same for every
buffer, so no byte of the buffer is looked at, and leaves the `dibHeader_t` exactly as it was
given. -/
theorem parseDIBHeader_unsupported (declared : Nat) (buffer other : Buffer)
    (dibHeader : dibHeader_t) (hlt : declared < 2 ^ 32) (h12 : declared ≠ 12)
    (h40 : declared ≠ 40) :
    (parseDIBHeader buffer (sub32 declared 4) dibHeader).1 ≠ 1 ∧
    (parseDIBHeader buffer (sub32 declared 4) dibHeader).2 = dibHeader ∧
    parseDIBHeader other (sub32 declared 4) dibHeader
      = parseDIBHeader buffer (sub32 declared 4) dibHeader := by
  have hsel : (sub32 declared 4 + 4) % 2 ^ 32 = declared := by
    unfold sub32; split <;> omega
  have e12 : (sub32 declared 4 + 4) % 2 ^ 32 ≠ 12 := by rw [hsel]; exact h12
  have e40 : (sub32 declared 4 + 4) % 2 ^ 32 ≠ 40 := by rw [hsel]; exact h40
  rw [parseDIBHeader_other buffer _ dibHeader e12 e40,
    parseDIBHeader_other other _ dibHeader e12 e40]
  refine ⟨?_, rfl, rfl⟩
  simp [minusOne32]

/-- Instance of C7 at the declared sizes 16 and 124, on a buffer of bytes 0xFF and a
`dibHeader_t` that already holds an info header. -/
theorem parseDIBHeader_unsupported_witness :
    (16 < 2 ^ 32 ∧ 16 ≠ 12 ∧ 16 ≠ 40) ∧
    ((parseDIBHeader (fun _ => 255) (sub32 16 4) infoDibHeader).1 ≠ 1 ∧
     (parseDIBHeader (fun _ => 255) (sub32 16 4) infoDibHeader).2
        = infoDibHeader ∧
     parseDIBHeader (fun _ => 0) (sub32 16 4) infoDibHeader
        = parseDIBHeader (fun _ => 255) (sub32 16 4) infoDibHeader) ∧
    (parseDIBHeader (fun _ => 255) (sub32 124 4) infoDibHeader).2
        = infoDibHeader :=
  ⟨by decide,
   parseDIBHeader_unsupported 16 (fun _ => 255) (fun _ => 0) infoDibHeader (by decide)
     (by decide) (by decide),
   (parseDIBHeader_unsupported 124 (fun _ => 255) (fun _ => 0) infoDibHeader (by decide)
     (by decide) (by decide)).2.1⟩

/-! ## The decodability check -/

/-- The return value of `isDecodeable` is 1 or 0. -/
theorem isDecodeable_cases (bitmap : bitmap_t) :
    isDecodeable bitmap = 1 ∨ isDecodeable bitmap = 0 := by
  unfold isDecodeable
  repeat' split
  all_goals simp

/-- C2: `isDecodeable` returns 1 exactly when the signature is 0x424D and the header is either
a core header (type 12) with 1 colour plane and 24 bits per pixel, or an info header (type 40)
with 1 colour plane, 24 bits per pixel, compression method 0 and palette colour count 0; on
every other bitmap it returns 0. -/
theorem isDecodeable_iff (bitmap : bitmap_t) :
    (isDecodeable bitmap = 1 ↔
      bitmap.bmpFileHeader.signature = 0x424D ∧
      ((bitmap.dibHeader.type = 12 ∧
          bitmap.dibHeader.header.bitMapCoreHeader.color_planes = 1 ∧
          bitmap.dibHeader.header.bitMapCoreHeader.bits_per_pixel = 24) ∨
       (bitmap.dibHeader.type = 40 ∧
          bitmap.dibHeader.header.bitMapInfoHeader.color_planes = 1 ∧
          bitmap.dibHeader.header.bitMapInfoHeader.bits_per_pixel = 24 ∧
          bitmap.dibHeader.header.bitMapInfoHeader.compression_method = 0 ∧
          bitmap.dibHeader.header.bitMapInfoHeader.color_palette = 0))) ∧
    (isDecodeable bitmap ≠ 1 → isDecodeable bitmap = 0) := by
  constructor
  · unfold isDecodeable
    simp only [BM, BITMAPCOREHEADER, BITMAPINFOHEADER, BI_RGB]
    by_cases hs : bitmap.bmpFileHeader.signature = 0x424D
    · by_cases h12 : bitmap.dibHeader.type = 12
      · simp [hs, h12]
      · by_cases h40 : bitmap.dibHeader.type = 40
        · simp [hs, h40]
        · simp [hs, h12, h40]
    · simp [hs]
  · intro h
    rcases isDecodeable_cases bitmap with h1 | h0
    · exact absurd h1 h
    · exact h0

/-! ## The stream -/

theorem fread_count (ptr : Buffer) (n : Nat) (stream : FILE) :
    (fread ptr n stream).1 = min n (stream.data.length - stream.pos) := by
  simp [fread]

theorem fread_stream (ptr : Buffer) (n : Nat) (stream : FILE) :
    (fread ptr n stream).2.2 =
      { stream with pos := stream.pos + min n (stream.data.length - stream.pos) } := by
  simp [fread]

theorem fread_bytes (ptr : Buffer) (n : Nat) (stream : FILE) (i : Nat)
    (hi : i < min n (stream.data.length - stream.pos)) :
    (fread ptr n stream).2.1 i = stream.data.getD (stream.pos + i) 0 := by
  have h1 : i < n := lt_of_lt_of_le hi (Nat.min_le_left _ _)
  have h2 : i < stream.data.length - stream.pos := lt_of_lt_of_le hi (Nat.min_le_right _ _)
  simp only [fread, List.length_take, List.length_drop, hi, if_true]
  rw [List.getD_eq_getElem?_getD, List.getD_eq_getElem?_getD, List.getElem?_take_of_lt h1,
    List.getElem?_drop]

theorem fread_rest (ptr : Buffer) (n : Nat) (stream : FILE) (i : Nat)
    (hi : min n (stream.data.length - stream.pos) ≤ i) :
    (fread ptr n stream).2.1 i = ptr i := by
  simp only [fread, List.length_take, List.length_drop]
  rw [if_neg (by omega)]

/-! ## The readers -/

theorem parseDIBHeader_congr (b1 b2 : Buffer) (n : Nat) (d : dibHeader_t)
    (hagree : ∀ i, i < n → b1 i = b2 i) :
    parseDIBHeader b1 n d = parseDIBHeader b2 n d := by
  unfold parseDIBHeader
  simp only [BITMAPCOREHEADER, BITMAPINFOHEADER]
  by_cases h12 : (n + 4) % 2 ^ 32 = 12
  · rw [if_pos h12, if_pos h12]
    exact parseBITMAPCOREHEADER_congr b1 b2 d (fun i hi => hagree i (by omega))
  · rw [if_neg h12, if_neg h12]
    by_cases h40 : (n + 4) % 2 ^ 32 = 40
    · rw [if_pos h40, if_pos h40]
      exact parseBITMAPINFOHEADER_congr b1 b2 d (fun i hi => hagree i (by omega))
    · rw [if_neg h40, if_neg h40]

theorem readBMPFileHeader_full (data : List Nat) (h : bmpFileHeader_t) (uninit : Buffer)
    (hlen : 18 ≤ data.length) :
    readBMPFileHeader (fopen data) h uninit =
      ((parseBMPFileHeader (bufferOfList data) h).1, { data := data, pos := 18 },
        (parseBMPFileHeader (bufferOfList data) h).2) := by
  have hmin : min 18 ((fopen data).data.length - (fopen data).pos) = 18 := by
    simp only [fopen]; omega
  have hbuf : parseBMPFileHeader (fread uninit 18 (fopen data)).2.1 h
      = parseBMPFileHeader (bufferOfList data) h := by
    apply parseBMPFileHeader_congr
    intro i hi
    rw [fread_bytes uninit 18 (fopen data) i (by rw [hmin]; exact hi)]
    simp [fopen, bufferOfList]
  have hc := fread_count uninit 18 (fopen data)
  have hs := fread_stream uninit 18 (fopen data)
  rw [hmin] at hc hs
  unfold readBMPFileHeader
  simp only [BMPFILEHEADERSIZE, Nat.reduceAdd, hc, hs, hbuf, ne_eq, not_true_eq_false, if_false]
  simp [fopen]

theorem readBMPFileHeader_short (data : List Nat) (h : bmpFileHeader_t) (uninit : Buffer)
    (hlen : data.length < 18) :
    readBMPFileHeader (fopen data) h uninit =
      (minusOne32, { data := data, pos := data.length }, h) := by
  have hmin : min 18 ((fopen data).data.length - (fopen data).pos) = data.length := by
    simp only [fopen]; omega
  have hc := fread_count uninit 18 (fopen data)
  have hs := fread_stream uninit 18 (fopen data)
  rw [hmin] at hc hs
  unfold readBMPFileHeader
  simp only [BMPFILEHEADERSIZE, Nat.reduceAdd, hc, hs]
  rw [if_pos (by omega)]
  simp [fopen]

theorem sub32_eq (a b : Nat) (hb : b ≤ a) : sub32 a b = a - b := by
  unfold sub32; rw [if_pos hb]

theorem sub32_add (a b : Nat) (hb : b < 2 ^ 32) (ha : a < 2 ^ 32) :
    (sub32 a b + b) % 2 ^ 32 = a := by
  unfold sub32; split <;> omega

theorem readDIBHeader_full (stream : FILE) (size : Nat) (d : dibHeader_t) (uninit : Buffer)
    (h4 : 4 ≤ size) (hlen : stream.pos + (size - 4) ≤ stream.data.length) :
    readDIBHeader stream size d uninit =
      ((parseDIBHeader (fun i => bufferOfList stream.data (stream.pos + i)) (size - 4) d).1,
        { stream with pos := stream.pos + (size - 4) },
        (parseDIBHeader (fun i => bufferOfList stream.data (stream.pos + i)) (size - 4) d).2) := by
  have hn : sub32 size 4 = size - 4 := sub32_eq size 4 h4
  have hmin : min (size - 4) (stream.data.length - stream.pos) = size - 4 := by omega
  have hbuf : parseDIBHeader (fread uninit (size - 4) stream).2.1 (size - 4) d
      = parseDIBHeader (fun i => bufferOfList stream.data (stream.pos + i)) (size - 4) d := by
    apply parseDIBHeader_congr
    intro i hi
    rw [fread_bytes uninit (size - 4) stream i (by rw [hmin]; exact hi)]
    rfl
  have hc := fread_count uninit (size - 4) stream
  have hs := fread_stream uninit (size - 4) stream
  rw [hmin] at hc hs
  unfold readDIBHeader
  simp only [hn, hc, hs, hbuf, ne_eq, not_true_eq_false, if_false]

/-- Whatever the stream holds, `readDIBHeader` on a size other than 12 and 40 returns `-1` and
leaves the `dibHeader_t` alone: a short read returns it directly, a full read gets it from the
`default` branch of `parseDIBHeader`. -/
theorem readDIBHeader_unsupported (stream : FILE) (size : Nat) (d : dibHeader_t)
    (uninit : Buffer) (hlt : size < 2 ^ 32) (h12 : size ≠ 12) (h40 : size ≠ 40) :
    (readDIBHeader stream size d uninit).1 = minusOne32 ∧
    (readDIBHeader stream size d uninit).2.2 = d := by
  have hsel : (sub32 size 4 + 4) % 2 ^ 32 = size := sub32_add size 4 (by omega) hlt
  have e12 : (sub32 size 4 + 4) % 2 ^ 32 ≠ 12 := by rw [hsel]; exact h12
  have e40 : (sub32 size 4 + 4) % 2 ^ 32 ≠ 40 := by rw [hsel]; exact h40
  unfold readDIBHeader
  simp only [parseDIBHeader_other _ _ d e12 e40]
  by_cases hc : (fread uninit (sub32 size 4) stream).1 ≠ sub32 size 4
  · rw [if_pos hc]
    exact ⟨rfl, rfl⟩
  · rw [if_neg hc]
    exact ⟨rfl, rfl⟩

theorem parseBMPFileHeader_size (buffer : Buffer) (h : bmpFileHeader_t) (h14 : buffer 14 < 2 ^ 32)
    (h15 : buffer 15 = 0) (h16 : buffer 16 = 0) (h17 : buffer 17 = 0) :
    (parseBMPFileHeader buffer h).1 = buffer 14 := by
  unfold parseBMPFileHeader
  simp only [h15, h16, h17, Nat.zero_or]
  exact Nat.mod_eq_of_lt h14

theorem pixelArraySize_core (d : dibHeader_t) (h : d.type = 12) :
    ∃ size, pixelArraySize d = some size := by
  unfold pixelArraySize
  rw [if_pos (by rw [h]; rfl)]
  exact ⟨_, rfl⟩

theorem pixelArraySize_info (d : dibHeader_t) (h : d.type = 40) :
    ∃ size, pixelArraySize d = some size := by
  unfold pixelArraySize
  rw [if_neg (by rw [h]; decide), if_pos (by rw [h]; rfl)]
  exact ⟨_, rfl⟩

theorem parseDIBHeader_supported (buffer : Buffer) (declared : Nat) (d : dibHeader_t)
    (hdecl : declared = 12 ∨ declared = 40) :
    (parseDIBHeader buffer (declared - 4) d).1 = 1 ∧
    (parseDIBHeader buffer (declared - 4) d).2.type = declared := by
  rcases hdecl with h | h
  · subst h
    rw [show 12 - 4 = 8 from rfl, parseDIBHeader_eight]
    exact ⟨rfl, rfl⟩
  · subst h
    rw [show 40 - 4 = 36 from rfl, parseDIBHeader_thirtysix]
    exact ⟨rfl, rfl⟩

/-- What `readBitmapFile` does once both header reads have gone through. -/
theorem readBitmapFile_eq (data : List Nat) (bitmap : bitmap_t) (uninit : Buffer)
    (declared : Nat) (hdecl : declared = 12 ∨ declared = 40)
    (hsize : bufferOfList data 14 + 256 * bufferOfList data 15 + 65536 * bufferOfList data 16
      + 16777216 * bufferOfList data 17 = declared)
    (hfull : 14 + declared ≤ data.length) (size : Nat)
    (hsz : pixelArraySize
      (parseDIBHeader (fun i => bufferOfList data (18 + i)) (declared - 4) bitmap.dibHeader).2
        = some size) :
    readBitmapFile (fopen data) bitmap uninit =
      (1,
       (fread uninit size
          { data := data
            pos := (parseBMPFileHeader (bufferOfList data) bitmap.bmpFileHeader).2.img_offset }).2.2,
       { bitmap with
          bmpFileHeader := (parseBMPFileHeader (bufferOfList data) bitmap.bmpFileHeader).2
          dibHeader :=
            (parseDIBHeader (fun i => bufferOfList data (18 + i)) (declared - 4)
              bitmap.dibHeader).2
          pixel_array :=
            (fread uninit size
              { data := data
                pos := (parseBMPFileHeader (bufferOfList data)
                  bitmap.bmpFileHeader).2.img_offset }).2.1 }) := by
  have hlen18 : 18 ≤ data.length := by omega
  have hret : (parseBMPFileHeader (bufferOfList data) bitmap.bmpFileHeader).1 = declared := by
    rw [parseBMPFileHeader_size _ _ (by omega) (by omega) (by omega) (by omega)]
    omega
  have h1 := readBMPFileHeader_full data bitmap.bmpFileHeader uninit hlen18
  rw [hret] at h1
  have h2 := readDIBHeader_full { data := data, pos := 18 } declared bitmap.dibHeader uninit
    (by omega) (by simp only; omega)
  have hp := parseDIBHeader_supported (fun i => bufferOfList data (18 + i)) declared
    bitmap.dibHeader hdecl
  simp only [hp.1] at h2
  have hd0 : declared ≠ 0 := by omega
  unfold readBitmapFile
  simp only [h1, h2, hd0, if_false, hsz, fseek, one_ne_zero]

/-- C8: on a file whose size field (bytes 14..17, little-endian) declares 12 or 40, that holds
the whole DIB header (14 + declared bytes) and holds `pixel_array_size` bytes from the offset
`img_offset` on, `readBitmapFile` returns 1; it leaves the file header that
`parseBMPFileHeader` stores from the first bytes, the DIB header that `parseDIBHeader` stores
from the bytes after byte 17, and a pixel buffer whose `pixel_array_size` entries are the file's
bytes from `img_offset` on.  Nothing is asked of the bytes between the DIB header and
`img_offset`, of the `bitmap_t` before the call, or of uninitialised storage. -/
theorem readBitmapFile_succeeds (data : List Nat) (bitmap : bitmap_t) (uninit : Buffer)
    (declared : Nat) (hdecl : declared = 12 ∨ declared = 40)
    (hsize : bufferOfList data 14 + 256 * bufferOfList data 15 + 65536 * bufferOfList data 16
      + 16777216 * bufferOfList data 17 = declared)
    (hfull : 14 + declared ≤ data.length)
    (hpix : ∀ size,
      pixelArraySize
        (parseDIBHeader (fun i => bufferOfList data (18 + i)) (declared - 4) bitmap.dibHeader).2
          = some size →
      (parseBMPFileHeader (bufferOfList data) bitmap.bmpFileHeader).2.img_offset + size
        ≤ data.length) :
    (readBitmapFile (fopen data) bitmap uninit).1 = 1 ∧
    (readBitmapFile (fopen data) bitmap uninit).2.2.bmpFileHeader
      = (parseBMPFileHeader (bufferOfList data) bitmap.bmpFileHeader).2 ∧
    (readBitmapFile (fopen data) bitmap uninit).2.2.dibHeader
      = (parseDIBHeader (fun i => bufferOfList data (18 + i)) (declared - 4)
          bitmap.dibHeader).2 ∧
    ∃ size,
      pixelArraySize (readBitmapFile (fopen data) bitmap uninit).2.2.dibHeader = some size ∧
      ∀ i, i < size →
        (readBitmapFile (fopen data) bitmap uninit).2.2.pixel_array i
          = bufferOfList data
              ((readBitmapFile (fopen data) bitmap uninit).2.2.bmpFileHeader.img_offset + i) := by
  have hp := parseDIBHeader_supported (fun i => bufferOfList data (18 + i)) declared
    bitmap.dibHeader hdecl
  obtain ⟨size, hsz⟩ : ∃ size, pixelArraySize
      (parseDIBHeader (fun i => bufferOfList data (18 + i)) (declared - 4) bitmap.dibHeader).2
        = some size := by
    rcases hdecl with h | h
    · exact pixelArraySize_core _ (by rw [hp.2, h])
    · exact pixelArraySize_info _ (by rw [hp.2, h])
  have hle := hpix size hsz
  rw [readBitmapFile_eq data bitmap uninit declared hdecl hsize hfull size hsz]
  refine ⟨rfl, rfl, rfl, size, hsz, ?_⟩
  intro i hi
  exact fread_bytes uninit size _ i (by simp only; omega)

/-- Instance of C8: the 62-byte file `infoFile` read into an all-zero `bitmap_t`. -/
theorem readBitmapFile_succeeds_witness :
    (14 + 40 ≤ infoFile.length) ∧
    (readBitmapFile (fopen infoFile) zeroBitmap (fun _ => 0)).1 = 1 ∧
    (readBitmapFile (fopen infoFile) zeroBitmap (fun _ => 0)).2.2.bmpFileHeader
      = (parseBMPFileHeader (bufferOfList infoFile) zeroBitmap.bmpFileHeader).2 ∧
    (readBitmapFile (fopen infoFile) zeroBitmap (fun _ => 0)).2.2.dibHeader
      = (parseDIBHeader (fun i => bufferOfList infoFile (18 + i)) (40 - 4)
          zeroBitmap.dibHeader).2 ∧
    ∃ size,
      pixelArraySize (readBitmapFile (fopen infoFile) zeroBitmap (fun _ => 0)).2.2.dibHeader
        = some size ∧
      ∀ i, i < size →
        (readBitmapFile (fopen infoFile) zeroBitmap (fun _ => 0)).2.2.pixel_array i
          = bufferOfList infoFile
              ((readBitmapFile (fopen infoFile) zeroBitmap
                (fun _ => 0)).2.2.bmpFileHeader.img_offset + i) :=
  ⟨by decide,
   readBitmapFile_succeeds infoFile zeroBitmap (fun _ => 0) 40 (Or.inr rfl) (by decide)
     (by decide)
     (fun size h => by
       have h8 : pixelArraySize
           (parseDIBHeader (fun i => bufferOfList infoFile (18 + i)) (40 - 4)
             zeroBitmap.dibHeader).2 = some 8 := by decide
       rw [h8] at h
       cases h
       decide)⟩

theorem parseBMPFileHeader_ret_lt (buffer : Buffer) (h : bmpFileHeader_t) :
    (parseBMPFileHeader buffer h).1 < 2 ^ 32 :=
  Nat.mod_lt _ (by decide)

theorem pixelArraySize_none (d : dibHeader_t) (h12 : d.type ≠ 12) (h40 : d.type ≠ 40) :
    pixelArraySize d = none := by
  unfold pixelArraySize
  rw [if_neg (show ¬ d.type = BITMAPCOREHEADER from h12),
    if_neg (show ¬ d.type = BITMAPINFOHEADER from h40)]

/-- What `readBitmapFile` returns on a file of at least 18 bytes whose header size, as
`parseBMPFileHeader` returns it, is not 0, 12 or 40: the DIB header of the caller's struct is
left as it was, and the return value is 1 when that struct happened to hold the type 12 or 40
and 0 otherwise. -/
theorem readBitmapFile_unsupported (data : List Nat) (bitmap : bitmap_t) (uninit : Buffer)
    (hlen : 18 ≤ data.length)
    (h0 : (parseBMPFileHeader (bufferOfList data) bitmap.bmpFileHeader).1 ≠ 0)
    (h12 : (parseBMPFileHeader (bufferOfList data) bitmap.bmpFileHeader).1 ≠ 12)
    (h40 : (parseBMPFileHeader (bufferOfList data) bitmap.bmpFileHeader).1 ≠ 40) :
    (readBitmapFile (fopen data) bitmap uninit).1
      = (if bitmap.dibHeader.type = 12 ∨ bitmap.dibHeader.type = 40 then 1 else 0) ∧
    (readBitmapFile (fopen data) bitmap uninit).2.2.dibHeader = bitmap.dibHeader := by
  have h1 := readBMPFileHeader_full data bitmap.bmpFileHeader uninit hlen
  obtain ⟨hr, hd⟩ := readDIBHeader_unsupported { data := data, pos := 18 }
    (parseBMPFileHeader (bufferOfList data) bitmap.bmpFileHeader).1 bitmap.dibHeader uninit
    (parseBMPFileHeader_ret_lt _ _) h12 h40
  have hm : minusOne32 ≠ 0 := by decide
  unfold readBitmapFile
  simp only [h1, h0, if_false, hr, hd, hm]
  by_cases t12 : bitmap.dibHeader.type = 12
  · obtain ⟨size, hs⟩ := pixelArraySize_core bitmap.dibHeader t12
    simp only [hs, t12, true_or, if_true, and_self]
  · by_cases t40 : bitmap.dibHeader.type = 40
    · obtain ⟨size, hs⟩ := pixelArraySize_info bitmap.dibHeader t40
      simp only [hs, t40, or_true, if_true, and_self]
    · rw [pixelArraySize_none bitmap.dibHeader t12 t40]
      simp only [t12, t40, or_self, if_false, and_self]


/-- C9, evaluated: `os2File` declares the header size 16.  `parseDIBHeader` answers `-1`, which
`readBitmapFile` does not take for a failure (it tests for 0), so the switch on
`bitmap->dibHeader.type` runs on what the caller's struct held before the call; with a stale
type 40 there, a pixel-array size is computed from the stale fields, the pixel read is made and
the call returns 1.  The DIB header is still the stale one. -/
theorem readBitmapFile_unsupported_returns_one :
    (parseBMPFileHeader (bufferOfList os2File) zeroFileHeader).1 = 16 ∧
    (readBitmapFile (fopen os2File) staleBitmap (fun _ => 0)).1 = 1 ∧
    (readBitmapFile (fopen os2File) staleBitmap (fun _ => 0)).2.2.dibHeader = infoDibHeader ∧
    pixelArraySize (readBitmapFile (fopen os2File) staleBitmap (fun _ => 0)).2.2.dibHeader
      = some 8 := by
  decide

/-- C10, evaluated: `truncatedFile` is `infoFile` cut after its 54 header bytes, so none of the
8 pixel bytes requested at offset 54 is there; the count of the last `fread` is 0 and
`readBitmapFile` returns 1 all the same.  On `infoFile` cut after 30 bytes the read of the DIB
header obtains 12 of the 36 bytes asked for and `readDIBHeader` returns `-1`; with the stale
type 40 in the caller's struct `readBitmapFile` returns 1 there too. -/
theorem readBitmapFile_short_read_returns_one :
    truncatedFile.length = 54 ∧
    (readBitmapFile (fopen truncatedFile) zeroBitmap (fun _ => 0)).2.2.bmpFileHeader.img_offset
      = 54 ∧
    pixelArraySize (readBitmapFile (fopen truncatedFile) zeroBitmap (fun _ => 0)).2.2.dibHeader
      = some 8 ∧
    (fread (fun _ => 0) 8 (fseek (fopen truncatedFile) 54)).1 = 0 ∧
    (readBitmapFile (fopen truncatedFile) zeroBitmap (fun _ => 0)).1 = 1 ∧
    (readDIBHeader { data := infoFile.take 30, pos := 18 } 40 infoDibHeader (fun _ => 0)).1
      = minusOne32 ∧
    (readBitmapFile (fopen (infoFile.take 30)) staleBitmap (fun _ => 0)).1 = 1 := by
  decide

/-! ## The decoding loop -/

theorem packedBits_lt (pixel_array : Buffer) (k n : Nat) :
    packedBits pixel_array k n < 2 ^ n := by
  induction n with
  | zero => simp [packedBits]
  | succ n ih =>
    have hbit : pixel_array (8 * k + n) % 2 < 2 := Nat.mod_lt _ (by decide)
    have hmul : pixel_array (8 * k + n) % 2 * 2 ^ n ≤ 1 * 2 ^ n :=
      Nat.mul_le_mul_right _ (by omega)
    simp only [packedBits, pow_succ]
    omega

theorem packedBits_eq_sum (pixel_array : Buffer) (k n : Nat) :
    packedBits pixel_array k n
      = ∑ j ∈ Finset.range n, pixel_array (8 * k + j) % 2 * 2 ^ j := by
  induction n with
  | zero => simp [packedBits]
  | succ n ih => rw [Finset.sum_range_succ, ← ih, packedBits]

/-- The accumulation `tempChar | ((pixel & 1) << bit)` adds the next bit on top of the bits
already packed. -/
theorem tempChar_step (pixel_array : Buffer) (k n : Nat) (hn : n < 8) :
    (packedBits pixel_array k n ||| ((pixel_array (8 * k + n) &&& 1) <<< n)) % 2 ^ 8
      = packedBits pixel_array k (n + 1) := by
  rw [Nat.or_comm, shl_or_eq n _ _ (packedBits_lt pixel_array k n), Nat.and_one_is_mod]
  have hlt := packedBits_lt pixel_array k (n + 1)
  have hpow : 2 ^ (n + 1) ≤ 2 ^ 8 := Nat.pow_le_pow_right (by decide) (by omega)
  have heq : pixel_array (8 * k + n) % 2 * 2 ^ n + packedBits pixel_array k n
      = packedBits pixel_array k (n + 1) := by
    simp only [packedBits]; omega
  rw [heq]
  exact Nat.mod_eq_of_lt (lt_of_lt_of_le hlt hpow)

theorem decodeBody_inv (pixel_array : Buffer) (charCount : Nat) (s : DecodeState)
    (hinv : DecodeInv pixel_array charCount s) (hc : s.cCounter < charCount)
    (hcc : 8 * charCount < 2 ^ 32) :
    DecodeInv pixel_array charCount (decodeBody pixel_array s) ∧
    (decodeBody pixel_array s).bCounter = s.bCounter + 1 := by
  obtain ⟨hpos, hbit, hle, _, htemp, hlen, hstored, hlast⟩ := hinv
  have ht : (s.tempChar ||| ((pixel_array s.bCounter &&& 1) <<< s.bit)) % 2 ^ 8
      = packedBits pixel_array s.cCounter (s.bit + 1) := by
    rw [htemp, hpos]
    exact tempChar_step pixel_array s.cCounter s.bit hbit
  have hb1 : (s.bit + 1) % 2 ^ 8 = s.bit + 1 := Nat.mod_eq_of_lt (by omega)
  have hbc : (s.bCounter + 1) % 2 ^ 32 = s.bCounter + 1 := Nat.mod_eq_of_lt (by omega)
  have hcc1 : (s.cCounter + 1) % 2 ^ 32 = s.cCounter + 1 := Nat.mod_eq_of_lt (by omega)
  unfold decodeBody
  simp only [ht, hb1, hbc, hcc1]
  by_cases h7 : s.bit + 1 > 7
  · have hb7 : s.bit = 7 := by omega
    rw [if_pos h7]
    refine ⟨⟨?_, ?_, ?_, ?_, ?_, ?_, ?_, ?_⟩, rfl⟩
    · simp only; omega
    · simp only; omega
    · simp only; omega
    · intro _; rfl
    · simp only [packedBits]
    · simp only [List.length_set]; exact hlen
    · intro k hk
      simp only at hk
      by_cases hkc : k = s.cCounter
      · subst hkc
        simp only
        rw [List.getElem?_set_self (by omega), hb7]
      · simp only
        rw [List.getElem?_set_ne (fun h => hkc h.symm)]
        exact hstored k (by omega)
    · simp only
      rw [List.getElem?_set_ne (by omega)]
      exact hlast
  · rw [if_neg h7]
    refine ⟨⟨?_, ?_, ?_, ?_, ?_, ?_, ?_, ?_⟩, rfl⟩
    · simp only; omega
    · simp only; omega
    · exact hle
    · intro h; simp only at h; omega
    · rfl
    · exact hlen
    · exact hstored
    · exact hlast

theorem decodeLoop_inv (pixel_array : Buffer) (byteCount charCount : Nat)
    (hcc : 8 * charCount ≤ byteCount) (hbc : byteCount < 2 ^ 32) :
    ∀ (fuel : Nat) (s : DecodeState), DecodeInv pixel_array charCount s →
      8 * charCount - s.bCounter ≤ fuel →
      ∃ s', decodeLoop pixel_array byteCount charCount fuel s = some s' ∧
        DecodeInv pixel_array charCount s' ∧ s'.cCounter = charCount := by
  intro fuel
  induction fuel with
  | zero =>
    intro s hinv hfuel
    have hc : s.cCounter = charCount := by
      have := hinv.pos; have := hinv.bit_lt; have := hinv.count_le; omega
    refine ⟨s, ?_, hinv, hc⟩
    unfold decodeLoop
    rw [if_neg (by omega)]
  | succ fuel ih =>
    intro s hinv hfuel
    by_cases hcond : s.bCounter < byteCount ∧ s.cCounter < charCount
    · obtain ⟨hinv', hb'⟩ := decodeBody_inv pixel_array charCount s hinv hcond.2 (by omega)
      have hlt : s.bCounter < 8 * charCount := by
        have := hinv.pos; have := hinv.bit_lt; omega
      obtain ⟨s', hs', hinv2, hc'⟩ := ih (decodeBody pixel_array s) hinv' (by omega)
      refine ⟨s', ?_, hinv2, hc'⟩
      rw [decodeLoop, if_pos hcond]
      exact hs'
    · have hc : s.cCounter = charCount := by
        have := hinv.pos; have := hinv.bit_lt; have := hinv.count_le
        by_contra hne
        exact hcond ⟨by omega, by omega⟩
      refine ⟨s, ?_, hinv, hc⟩
      rw [decodeLoop, if_neg hcond]

theorem decodeCounts_supported (d : dibHeader_t) (htype : d.type = 12 ∨ d.type = 40) :
    decodeCounts d =
      some ((3 * imageWidth d * imageHeight d) % 2 ^ 32,
        (3 * imageWidth d * imageHeight d) % 2 ^ 32 / 8) := by
  unfold decodeCounts imageWidth imageHeight
  simp only [BITMAPCOREHEADER, BITMAPINFOHEADER]
  rcases htype with h | h
  · rw [if_pos h, if_pos h, if_pos h]
  · have h12 : ¬ d.type = 12 := by rw [h]; decide
    rw [if_neg h12, if_pos h, if_neg h12, if_neg h12]

/-- The loop of `decodeMessage` ends within `byteCount` passes, and the block it leaves holds
the `charCount` packed bytes followed by the terminator written before the loop. -/
theorem decodeMessage_finishes (bitmap : bitmap_t) (uninit : Buffer)
    (htype : bitmap.dibHeader.type = 12 ∨ bitmap.dibHeader.type = 40) :
    ∃ s : DecodeState,
      decodeMessage bitmap uninit = DecodeResult.message s.str ∧
      DecodeInv bitmap.pixel_array
        ((3 * imageWidth bitmap.dibHeader * imageHeight bitmap.dibHeader) % 2 ^ 32 / 8) s ∧
      s.cCounter
        = (3 * imageWidth bitmap.dibHeader * imageHeight bitmap.dibHeader) % 2 ^ 32 / 8 := by
  have hcounts := decodeCounts_supported bitmap.dibHeader htype
  generalize hbc : (3 * imageWidth bitmap.dibHeader * imageHeight bitmap.dibHeader) % 2 ^ 32
    = byteCount at hcounts ⊢
  have hlt : byteCount < 2 ^ 32 := by rw [← hbc]; exact Nat.mod_lt _ (by decide)
  have hinit : DecodeInv bitmap.pixel_array (byteCount / 8)
      { str := ((List.range (byteCount / 8 + 1)).map uninit).set (byteCount / 8) 0
        tempChar := 0, cCounter := 0, bit := 0, bCounter := 0 } := by
    refine ⟨rfl, Nat.succ_pos 7, Nat.zero_le _, fun _ => rfl, rfl, ?_, ?_, ?_⟩
    · simp
    · intro k hk; exact absurd hk (Nat.not_lt_zero k)
    · simp only
      rw [List.getElem?_set_self (by simp)]
  obtain ⟨s, hs, hinv, hc⟩ := decodeLoop_inv bitmap.pixel_array byteCount (byteCount / 8)
    (by omega) hlt byteCount _ hinit (by simp only; omega)
  refine ⟨s, ?_, hinv, hc⟩
  unfold decodeMessage
  simp only [hcounts, hs]

/-- The whole block `decodeMessage` returns for a core or info header: the packed bytes, one per
group of eight pixel bytes, and then the terminator. -/
theorem decodeMessage_eq (bitmap : bitmap_t) (uninit : Buffer)
    (htype : bitmap.dibHeader.type = 12 ∨ bitmap.dibHeader.type = 40) :
    decodeMessage bitmap uninit =
      DecodeResult.message
        ((List.range
            ((3 * imageWidth bitmap.dibHeader * imageHeight bitmap.dibHeader) % 2 ^ 32 / 8)).map
          (fun k => packedBits bitmap.pixel_array k 8) ++ [0]) := by
  obtain ⟨s, hs, hinv, hc⟩ := decodeMessage_finishes bitmap uninit htype
  rw [hs]
  congr 1
  generalize (3 * imageWidth bitmap.dibHeader * imageHeight bitmap.dibHeader) % 2 ^ 32 / 8
    = c at hinv hc
  apply List.ext_getElem?
  intro i
  rcases Nat.lt_trichotomy i c with hlt | heq | hgt
  · rw [hinv.stored i (by rw [hc]; exact hlt),
      List.getElem?_append_left (by simp only [List.length_map, List.length_range]; exact hlt),
      List.getElem?_map, List.getElem?_range hlt]
    rfl
  · subst heq
    rw [hinv.last, List.getElem?_append_right (by simp)]
    simp
  · rw [List.getElem?_eq_none (by rw [hinv.len]; omega),
      List.getElem?_eq_none (by simp; omega)]


/-- C1: for a bitmap with a core or info header and `3 * width * height < 2 ^ 32`,
`decodeMessage` returns a block whose byte `k`, for every `k` below `3 * width * height / 8`, is
the sum over `j = 0..7` of `(pixel_array[8 * k + j] mod 2) * 2 ^ j`: the first pixel byte of
each group of eight gives bit 0.  The pixel buffer is read through the pointer, at the indices
`8 * k + j` only, which lie below `3 * width * height`. -/
theorem decodeMessage_bytes (bitmap : bitmap_t) (uninit : Buffer)
    (htype : bitmap.dibHeader.type = 12 ∨ bitmap.dibHeader.type = 40)
    (hlt : 3 * imageWidth bitmap.dibHeader * imageHeight bitmap.dibHeader < 2 ^ 32) :
    ∃ str, decodeMessage bitmap uninit = DecodeResult.message str ∧
      ∀ k, k < 3 * imageWidth bitmap.dibHeader * imageHeight bitmap.dibHeader / 8 →
        str[k]? = some (∑ j ∈ Finset.range 8, bitmap.pixel_array (8 * k + j) % 2 * 2 ^ j) ∧
        ∀ j, j < 8 →
          8 * k + j < 3 * imageWidth bitmap.dibHeader * imageHeight bitmap.dibHeader := by
  obtain ⟨s, hs, hinv, hc⟩ := decodeMessage_finishes bitmap uninit htype
  rw [Nat.mod_eq_of_lt hlt] at hinv hc
  refine ⟨s.str, hs, ?_⟩
  intro k hk
  refine ⟨?_, ?_⟩
  · rw [← packedBits_eq_sum]
    exact hinv.stored k (by rw [hc]; exact hk)
  · intro j hj
    omega

/-- Instance of C1: a 3 by 2 info-header bitmap whose 18 pixel bytes have the low bits
1,0,1,0,1,0,1,0, 1,1,1,1,0,0,0,0, 1,1; the two message bytes are 0x55 and 0x0F, and the
block ends with the terminator. -/
theorem decodeMessage_bytes_witness :
    (sampleBitmap.dibHeader.type = 12 ∨ sampleBitmap.dibHeader.type = 40) ∧
    3 * imageWidth sampleBitmap.dibHeader * imageHeight sampleBitmap.dibHeader < 2 ^ 32 ∧
    decodeMessage sampleBitmap (fun _ => 0xAA) = DecodeResult.message [0x55, 0x0F, 0] ∧
    ∃ str, decodeMessage sampleBitmap (fun _ => 0xAA) = DecodeResult.message str ∧
      ∀ k, k < 3 * imageWidth sampleBitmap.dibHeader * imageHeight sampleBitmap.dibHeader / 8 →
        str[k]? = some (∑ j ∈ Finset.range 8, sampleBitmap.pixel_array (8 * k + j) % 2 * 2 ^ j) ∧
        ∀ j, j < 8 →
          8 * k + j < 3 * imageWidth sampleBitmap.dibHeader * imageHeight sampleBitmap.dibHeader :=
  ⟨by decide, by decide, by decide,
   decodeMessage_bytes sampleBitmap (fun _ => 0xAA) (by decide) (by decide)⟩

/-! ## The counts of the decoder -/

/-- The loop of `decodeMessage` ends, in a state that satisfies the invariant with `cCounter`
equal to `charCount`; the block of that state is what `decodeMessage` returns. -/
theorem decodeFinalState_spec (bitmap : bitmap_t) (uninit : Buffer)
    (htype : bitmap.dibHeader.type = 12 ∨ bitmap.dibHeader.type = 40) :
    ∃ s : DecodeState,
      decodeFinalState bitmap uninit = some s ∧
      decodeMessage bitmap uninit = DecodeResult.message s.str ∧
      DecodeInv bitmap.pixel_array
        ((3 * imageWidth bitmap.dibHeader * imageHeight bitmap.dibHeader) % 2 ^ 32 / 8) s ∧
      s.cCounter
        = (3 * imageWidth bitmap.dibHeader * imageHeight bitmap.dibHeader) % 2 ^ 32 / 8 := by
  have hcounts := decodeCounts_supported bitmap.dibHeader htype
  generalize hbc : (3 * imageWidth bitmap.dibHeader * imageHeight bitmap.dibHeader) % 2 ^ 32
    = byteCount at hcounts ⊢
  have hlt : byteCount < 2 ^ 32 := by rw [← hbc]; exact Nat.mod_lt _ (by decide)
  have hinit : DecodeInv bitmap.pixel_array (byteCount / 8)
      { str := ((List.range (byteCount / 8 + 1)).map uninit).set (byteCount / 8) 0
        tempChar := 0, cCounter := 0, bit := 0, bCounter := 0 } := by
    refine ⟨rfl, Nat.succ_pos 7, Nat.zero_le _, fun _ => rfl, rfl, ?_, ?_, ?_⟩
    · simp
    · intro k hk; exact absurd hk (Nat.not_lt_zero k)
    · simp only
      rw [List.getElem?_set_self (by simp)]
  obtain ⟨s, hs, hinv, hc⟩ := decodeLoop_inv bitmap.pixel_array byteCount (byteCount / 8)
    (by omega) hlt byteCount _ hinit (by simp only; omega)
  refine ⟨s, ?_, ?_, hinv, hc⟩
  · unfold decodeFinalState
    simp only [hcounts, hs]
  · unfold decodeMessage
    simp only [hcounts, hs]

/-- The loop ends after reading exactly the pixel bytes below `8 * charCount`. -/
theorem decodeInv_bCounter_eq {pixel_array : Buffer} {charCount : Nat} {s : DecodeState}
    (hinv : DecodeInv pixel_array charCount s) (hc : s.cCounter = charCount) :
    s.bCounter = 8 * charCount := by
  have h1 := hinv.pos
  have h2 := hinv.bit_zero hc
  omega

/-- C11 as stated fails: for the 40000 by 40000 info header `3 * width * height / 8` is
600000000 over the integers, while the 32-bit product wraps to 505032704 and `decodeMessage`
stores 63129088 message bytes. -/
theorem decodeMessage_count_wraps :
    3 * imageWidth largeBitmap.dibHeader * imageHeight largeBitmap.dibHeader / 8 = 600000000 ∧
    ∃ s, decodeFinalState largeBitmap (fun _ => 0) = some s ∧
      decodeMessage largeBitmap (fun _ => 0) = DecodeResult.message s.str ∧
      s.cCounter = 63129088 ∧ s.str.length = 63129089 ∧
      s.cCounter
        ≠ 3 * imageWidth largeBitmap.dibHeader * imageHeight largeBitmap.dibHeader / 8 := by
  refine ⟨by decide, ?_⟩
  obtain ⟨s, hs, hm, hinv, hc⟩ := decodeFinalState_spec largeBitmap (fun _ => 0) (by decide)
  have hval : (3 * imageWidth largeBitmap.dibHeader * imageHeight largeBitmap.dibHeader)
      % 2 ^ 32 / 8 = 63129088 := by decide
  rw [hval] at hc hinv
  refine ⟨s, hs, hm, hc, ?_, ?_⟩
  · rw [hinv.len]
  · rw [hc]; decide

/-- C11, amended: for a core or info header the number of message bytes `decodeMessage` stores
is `(3 * width * height mod 2 ^ 32) / 8`, the product being a 32-bit one; the block it returns
has that many bytes and the terminator; and the count is `3 * width * height / 8` over the
integers whenever `3 * width * height < 2 ^ 32`. -/
theorem decodeMessage_count (bitmap : bitmap_t) (uninit : Buffer)
    (htype : bitmap.dibHeader.type = 12 ∨ bitmap.dibHeader.type = 40) :
    ∃ s, decodeFinalState bitmap uninit = some s ∧
      decodeMessage bitmap uninit = DecodeResult.message s.str ∧
      s.cCounter
        = (3 * imageWidth bitmap.dibHeader * imageHeight bitmap.dibHeader) % 2 ^ 32 / 8 ∧
      s.str.length = s.cCounter + 1 ∧
      (3 * imageWidth bitmap.dibHeader * imageHeight bitmap.dibHeader < 2 ^ 32 →
        s.cCounter = 3 * imageWidth bitmap.dibHeader * imageHeight bitmap.dibHeader / 8) := by
  obtain ⟨s, hs, hm, hinv, hc⟩ := decodeFinalState_spec bitmap uninit htype
  refine ⟨s, hs, hm, hc, ?_, ?_⟩
  · rw [hinv.len, hc]
  · intro hlt
    rw [hc, Nat.mod_eq_of_lt hlt]

/-- Instance of C11, amended, at the 3 by 2 bitmap `sampleBitmap`: 18 pixel bytes, 2 message
bytes. -/
theorem decodeMessage_count_witness :
    (sampleBitmap.dibHeader.type = 12 ∨ sampleBitmap.dibHeader.type = 40) ∧
    3 * imageWidth sampleBitmap.dibHeader * imageHeight sampleBitmap.dibHeader / 8 = 2 ∧
    ∃ s, decodeFinalState sampleBitmap (fun _ => 0) = some s ∧
      decodeMessage sampleBitmap (fun _ => 0) = DecodeResult.message s.str ∧
      s.cCounter
        = (3 * imageWidth sampleBitmap.dibHeader * imageHeight sampleBitmap.dibHeader)
            % 2 ^ 32 / 8 ∧
      s.str.length = s.cCounter + 1 ∧
      (3 * imageWidth sampleBitmap.dibHeader * imageHeight sampleBitmap.dibHeader < 2 ^ 32 →
        s.cCounter
          = 3 * imageWidth sampleBitmap.dibHeader * imageHeight sampleBitmap.dibHeader / 8) :=
  ⟨by decide, by decide, decodeMessage_count sampleBitmap (fun _ => 0) (by decide)⟩

/-! ## The size of the pixel array -/

/-- The rounding `(x + 31) / 32` of the source is the ceiling of `x / 32`. -/
theorem ceil_div32 (x : Nat) : Nat.ceil ((x : ℚ) / 32) = (x + 31) / 32 := by
  apply le_antisymm
  · rw [Nat.ceil_le, div_le_iff₀ (by norm_num)]
    have h : x ≤ (x + 31) / 32 * 32 := by omega
    exact_mod_cast h
  · have h := Nat.le_ceil ((x : ℚ) / 32)
    rw [div_le_iff₀ (by norm_num)] at h
    have h2 : x ≤ Nat.ceil ((x : ℚ) / 32) * 32 := by exact_mod_cast h
    omega

theorem wrapInt32_eq (x : Int) (h0 : 0 ≤ x) (h1 : x < 2 ^ 31) : wrapInt32 x = x := by
  unfold wrapInt32
  omega

/-- The size computed for an info header when nothing wraps. -/
theorem pixelArraySize_info_exact (d : dibHeader_t) (h : d.type = 40)
    (h1 : d.header.bitMapInfoHeader.bits_per_pixel * d.header.bitMapInfoHeader.bitmap_width + 31
      < 2 ^ 32)
    (h2 : (d.header.bitMapInfoHeader.bits_per_pixel * d.header.bitMapInfoHeader.bitmap_width
      + 31) / 32 * 4 * d.header.bitMapInfoHeader.bitmap_height < 2 ^ 32) :
    pixelArraySize d =
      some ((d.header.bitMapInfoHeader.bits_per_pixel * d.header.bitMapInfoHeader.bitmap_width
        + 31) / 32 * 4 * d.header.bitMapInfoHeader.bitmap_height) := by
  unfold pixelArraySize
  rw [if_neg (by rw [h]; decide), if_pos (by rw [h]; rfl)]
  dsimp only
  generalize d.header.bitMapInfoHeader.bits_per_pixel
    * d.header.bitMapInfoHeader.bitmap_width = x at h1 h2 ⊢
  have e1 : x % 2 ^ 32 = x := Nat.mod_eq_of_lt (by omega)
  have e2 : (x + 31) % 2 ^ 32 = x + 31 := Nat.mod_eq_of_lt h1
  have e3 : ((x + 31) / 32 * 4) % 2 ^ 32 = (x + 31) / 32 * 4 := Nat.mod_eq_of_lt (by omega)
  simp only [e1, e2, e3, Nat.mod_eq_of_lt h2]

/-- The size computed for a core header when no `int` overflows. -/
theorem pixelArraySize_core_exact (d : dibHeader_t) (h : d.type = 12)
    (h1 : d.header.bitMapCoreHeader.bits_per_pixel * d.header.bitMapCoreHeader.bitmap_width + 31
      < 2 ^ 31)
    (h2 : (d.header.bitMapCoreHeader.bits_per_pixel * d.header.bitMapCoreHeader.bitmap_width
      + 31) / 32 * 4 * d.header.bitMapCoreHeader.bitmap_height < 2 ^ 31) :
    pixelArraySize d =
      some ((d.header.bitMapCoreHeader.bits_per_pixel * d.header.bitMapCoreHeader.bitmap_width
        + 31) / 32 * 4 * d.header.bitMapCoreHeader.bitmap_height) := by
  unfold pixelArraySize
  rw [if_pos (by rw [h]; rfl)]
  have hx : (d.header.bitMapCoreHeader.bits_per_pixel : Int)
      * (d.header.bitMapCoreHeader.bitmap_width : Int)
      = ((d.header.bitMapCoreHeader.bits_per_pixel
          * d.header.bitMapCoreHeader.bitmap_width : Nat) : Int) := by push_cast; rfl
  simp only [hx]
  generalize d.header.bitMapCoreHeader.bits_per_pixel
    * d.header.bitMapCoreHeader.bitmap_width = x at h1 h2 ⊢
  generalize d.header.bitMapCoreHeader.bitmap_height = y at h2 ⊢
  have e1 : wrapInt32 (x : Int) = (x : Int) := wrapInt32_eq _ (by omega) (by omega)
  have e2 : wrapInt32 ((x : Int) + 31) = ((x + 31 : Nat) : Int) := by
    rw [wrapInt32_eq _ (by omega) (by omega)]; push_cast; rfl
  have e3 : Int.tdiv ((x + 31 : Nat) : Int) 32 * 4 = (((x + 31) / 32 * 4 : Nat) : Int) := by
    rw [show (32 : Int) = ((32 : Nat) : Int) from rfl, ← Int.ofNat_tdiv]; push_cast; rfl
  have e4 : wrapInt32 (((x + 31) / 32 * 4 : Nat) : Int) = (((x + 31) / 32 * 4 : Nat) : Int) :=
    wrapInt32_eq _ (by omega) (by omega)
  have e5 : (((x + 31) / 32 * 4 : Nat) : Int) * (y : Int)
      = (((x + 31) / 32 * 4 * y : Nat) : Int) := by push_cast; rfl
  have e6 : wrapInt32 (((x + 31) / 32 * 4 * y : Nat) : Int)
      = (((x + 31) / 32 * 4 * y : Nat) : Int) := wrapInt32_eq _ (by omega) (by omega)
  have e7 : ((((x + 31) / 32 * 4 * y : Nat) : Int) % 2 ^ 32).toNat = (x + 31) / 32 * 4 * y := by
    omega
  simp only [e1, e2, e3, e4, e5, e6, e7]

/-- C12 as stated fails: for the 40000 by 40000 info header with 24 bits per pixel the formula
gives 4800000000 over the integers, which is not below `2 ^ 32`; the 32-bit arithmetic of
`readBitmapFile` leaves `pixel_array_size` = 505032704. -/
theorem pixelArraySize_wraps :
    pixelArraySize largeDibHeader = some 505032704 ∧
    Nat.ceil (((imageBitsPerPixel largeDibHeader * imageWidth largeDibHeader : Nat) : ℚ) / 32)
      * 4 * imageHeight largeDibHeader = 4800000000 := by
  refine ⟨by decide, ?_⟩
  rw [ceil_div32]
  decide

/-- C12, amended: for a core or info header, when `bits_per_pixel * width + 31` and
`ceil(bits_per_pixel * width / 32) * 4 * height` are both below the bound of the arithmetic
(`2 ^ 31` for a core header, computed in `int`; `2 ^ 32` for an info header, computed in
`uint32_t`), the `pixel_array_size` that `readBitmapFile` computes is
`ceil(bits_per_pixel * width / 32) * 4 * height`, the ceiling taken over the rationals. -/
theorem pixelArraySize_eq_ceil (d : dibHeader_t) (htype : d.type = 12 ∨ d.type = 40)
    (h1 : imageBitsPerPixel d * imageWidth d + 31 < sizeArithBound d)
    (h2 : Nat.ceil (((imageBitsPerPixel d * imageWidth d : Nat) : ℚ) / 32) * 4 * imageHeight d
      < sizeArithBound d) :
    pixelArraySize d =
      some (Nat.ceil (((imageBitsPerPixel d * imageWidth d : Nat) : ℚ) / 32) * 4
        * imageHeight d) := by
  rw [ceil_div32] at h2 ⊢
  unfold imageBitsPerPixel imageWidth imageHeight sizeArithBound at *
  simp only [BITMAPCOREHEADER] at *
  rcases htype with h | h
  · simp only [if_pos h] at h1 h2 ⊢
    exact pixelArraySize_core_exact d h h1 h2
  · have h12 : ¬ d.type = 12 := by rw [h]; decide
    simp only [if_neg h12] at h1 h2 ⊢
    exact pixelArraySize_info_exact d h h1 h2

/-- Instance of C12, amended: the 2 by 1 info header (8 bytes) and the 3 by 2 core header
(24 bytes), both with 24 bits per pixel. -/
theorem pixelArraySize_eq_ceil_witness :
    (infoDibHeader.type = 12 ∨ infoDibHeader.type = 40) ∧
    imageBitsPerPixel infoDibHeader * imageWidth infoDibHeader + 31
      < sizeArithBound infoDibHeader ∧
    pixelArraySize infoDibHeader =
      some (Nat.ceil (((imageBitsPerPixel infoDibHeader * imageWidth infoDibHeader : Nat) : ℚ)
        / 32) * 4 * imageHeight infoDibHeader) ∧
    pixelArraySize infoDibHeader = some 8 ∧
    pixelArraySize coreDibHeader =
      some (Nat.ceil (((imageBitsPerPixel coreDibHeader * imageWidth coreDibHeader : Nat) : ℚ)
        / 32) * 4 * imageHeight coreDibHeader) ∧
    pixelArraySize coreDibHeader = some 24 :=
  ⟨by decide, by decide,
   pixelArraySize_eq_ceil infoDibHeader (by decide) (by decide) (by rw [ceil_div32]; decide),
   by decide,
   pixelArraySize_eq_ceil coreDibHeader (by decide) (by decide) (by rw [ceil_div32]; decide),
   by decide⟩

/-! ## The block the decoder returns -/

theorem decodeCounts_none (d : dibHeader_t) (h12 : d.type ≠ 12) (h40 : d.type ≠ 40) :
    decodeCounts d = none := by
  unfold decodeCounts
  rw [if_neg (show ¬ d.type = BITMAPCOREHEADER from h12),
    if_neg (show ¬ d.type = BITMAPINFOHEADER from h40)]

/-- C13 as stated fails: for the 3 by 2 bitmap `sampleBitmap`, `3 * width * height / 8` is 2,
and the block `decodeMessage` returns has 3 bytes, the last one being the terminator 0x00
written by `str[charCount] = 0`.  For `wrapBitmap` the 32-bit product wraps to 0 and the block
is the terminator alone, while `3 * width * height / 8` is 1610612736. -/
theorem decodeMessage_appends_terminator :
    3 * imageWidth sampleBitmap.dibHeader * imageHeight sampleBitmap.dibHeader / 8 = 2 ∧
    decodeMessage sampleBitmap (fun _ => 0xAA) = DecodeResult.message [0x55, 0x0F, 0x00] ∧
    3 * imageWidth wrapBitmap.dibHeader * imageHeight wrapBitmap.dibHeader / 8 = 1610612736 ∧
    decodeMessage wrapBitmap (fun _ => 0xAA) = DecodeResult.message [0x00] := by
  decide

/-- C13, amended: for a core or info header the block `decodeMessage` returns has
`char_count + 1` bytes, where `char_count = (3 * width * height mod 2 ^ 32) / 8` (which is
`3 * width * height / 8` when the product is below `2 ^ 32`): the `char_count` decoded bytes
and, after them, one terminator byte 0x00. -/
theorem decodeMessage_block (bitmap : bitmap_t) (uninit : Buffer)
    (htype : bitmap.dibHeader.type = 12 ∨ bitmap.dibHeader.type = 40) :
    ∃ decoded : List Nat,
      decodeMessage bitmap uninit = DecodeResult.message (decoded ++ [0]) ∧
      decoded.length
        = (3 * imageWidth bitmap.dibHeader * imageHeight bitmap.dibHeader) % 2 ^ 32 / 8 ∧
      (3 * imageWidth bitmap.dibHeader * imageHeight bitmap.dibHeader < 2 ^ 32 →
        decoded.length = 3 * imageWidth bitmap.dibHeader * imageHeight bitmap.dibHeader / 8) ∧
      ∀ k, k < decoded.length →
        decoded[k]? = some (∑ j ∈ Finset.range 8, bitmap.pixel_array (8 * k + j) % 2 * 2 ^ j) := by
  refine ⟨_, decodeMessage_eq bitmap uninit htype, ?_, ?_, ?_⟩
  · simp only [List.length_map, List.length_range]
  · intro hlt
    simp only [List.length_map, List.length_range]
    rw [Nat.mod_eq_of_lt hlt]
  · intro k hk
    simp only [List.length_map, List.length_range] at hk
    rw [List.getElem?_map, List.getElem?_range hk, ← packedBits_eq_sum]
    rfl

/-- Instance of C13, amended, at `sampleBitmap`. -/
theorem decodeMessage_block_witness :
    (sampleBitmap.dibHeader.type = 12 ∨ sampleBitmap.dibHeader.type = 40) ∧
    ∃ decoded : List Nat,
      decodeMessage sampleBitmap (fun _ => 0xAA) = DecodeResult.message (decoded ++ [0]) ∧
      decoded.length
        = (3 * imageWidth sampleBitmap.dibHeader * imageHeight sampleBitmap.dibHeader)
            % 2 ^ 32 / 8 ∧
      (3 * imageWidth sampleBitmap.dibHeader * imageHeight sampleBitmap.dibHeader < 2 ^ 32 →
        decoded.length
          = 3 * imageWidth sampleBitmap.dibHeader * imageHeight sampleBitmap.dibHeader / 8) ∧
      ∀ k, k < decoded.length →
        decoded[k]?
          = some (∑ j ∈ Finset.range 8, sampleBitmap.pixel_array (8 * k + j) % 2 * 2 ^ j) :=
  ⟨by decide, decodeMessage_block sampleBitmap (fun _ => 0xAA) (by decide)⟩

/-- C14: `decodeMessage` returns `NULL` exactly when the header type is neither 12 nor 40, and
for a core or info header it returns a block, whatever the pixel bytes and whatever the fresh
block held. -/
theorem decodeMessage_null_iff (bitmap : bitmap_t) (uninit : Buffer) :
    (decodeMessage bitmap uninit = DecodeResult.null ↔
      bitmap.dibHeader.type ≠ 12 ∧ bitmap.dibHeader.type ≠ 40) ∧
    (bitmap.dibHeader.type = 12 ∨ bitmap.dibHeader.type = 40 →
      ∀ pixels : Buffer, ∃ str,
        decodeMessage { bitmap with pixel_array := pixels } uninit
          = DecodeResult.message str) := by
  constructor
  · constructor
    · intro hnull
      by_contra hcon
      have htype : bitmap.dibHeader.type = 12 ∨ bitmap.dibHeader.type = 40 := by
        by_cases h12 : bitmap.dibHeader.type = 12
        · exact Or.inl h12
        · by_cases h40 : bitmap.dibHeader.type = 40
          · exact Or.inr h40
          · exact absurd ⟨h12, h40⟩ hcon
      rw [decodeMessage_eq bitmap uninit htype] at hnull
      exact DecodeResult.noConfusion hnull
    · intro h
      unfold decodeMessage
      rw [decodeCounts_none bitmap.dibHeader h.1 h.2]
  · intro htype pixels
    exact ⟨_, decodeMessage_eq { bitmap with pixel_array := pixels } uninit htype⟩

theorem packedBits_congr (p1 p2 : Buffer) (k n : Nat)
    (h : ∀ j, j < n → p1 (8 * k + j) % 2 = p2 (8 * k + j) % 2) :
    packedBits p1 k n = packedBits p2 k n := by
  induction n with
  | zero => rfl
  | succ n ih =>
    simp only [packedBits]
    rw [ih (fun j hj => h j (by omega)), h n (by omega)]

/-- C15: for a core or info header with `3 * width * height < 2 ^ 32`, a second pixel buffer
that has the same low bit as the first at every index below `8 * (3 * width * height / 8)`
gives the same block: the upper seven bits of each pixel byte and the pixel bytes of the final
partial group do not reach the output (nor does what the fresh block held). -/
theorem decodeMessage_low_bits_only (bitmap : bitmap_t) (other : Buffer) (u1 u2 : Buffer)
    (htype : bitmap.dibHeader.type = 12 ∨ bitmap.dibHeader.type = 40)
    (hlt : 3 * imageWidth bitmap.dibHeader * imageHeight bitmap.dibHeader < 2 ^ 32)
    (hlsb : ∀ i, i < 8 * (3 * imageWidth bitmap.dibHeader * imageHeight bitmap.dibHeader / 8) →
      other i % 2 = bitmap.pixel_array i % 2) :
    decodeMessage { bitmap with pixel_array := other } u1 = decodeMessage bitmap u2 := by
  rw [decodeMessage_eq _ u1 (show ({ bitmap with pixel_array := other } : bitmap_t).dibHeader.type
        = 12 ∨ ({ bitmap with pixel_array := other } : bitmap_t).dibHeader.type = 40 from htype),
    decodeMessage_eq bitmap u2 htype]
  simp only [Nat.mod_eq_of_lt hlt]
  congr 2
  apply List.map_congr_left
  intro k hk
  rw [List.mem_range] at hk
  exact packedBits_congr other bitmap.pixel_array k 8 (fun j hj => hlsb _ (by omega))

/-- Instance of C15: the pixel bytes `otherPixels` in place of those of `sampleBitmap`; the two
buffers differ in upper bits everywhere and in the low bits of the bytes 16 and 17. -/
theorem decodeMessage_low_bits_only_witness :
    (sampleBitmap.dibHeader.type = 12 ∨ sampleBitmap.dibHeader.type = 40) ∧
    3 * imageWidth sampleBitmap.dibHeader * imageHeight sampleBitmap.dibHeader < 2 ^ 32 ∧
    (∀ i, i < 8 * (3 * imageWidth sampleBitmap.dibHeader * imageHeight sampleBitmap.dibHeader / 8) →
      otherPixels i % 2 = sampleBitmap.pixel_array i % 2) ∧
    otherPixels 16 % 2 ≠ sampleBitmap.pixel_array 16 % 2 ∧
    otherPixels 0 ≠ sampleBitmap.pixel_array 0 ∧
    decodeMessage { sampleBitmap with pixel_array := otherPixels } (fun _ => 0)
      = decodeMessage sampleBitmap (fun _ => 0xAA) :=
  ⟨by decide, by decide, by decide, by decide, by decide,
   decodeMessage_low_bits_only sampleBitmap otherPixels (fun _ => 0) (fun _ => 0xAA)
     (by decide) (by decide) (by decide)⟩

theorem packedBits_alternating (pixel_array : Buffer) (k : Nat)
    (h : ∀ j, j < 8 → pixel_array (8 * k + j) = if (8 * k + j) % 2 = 0 then 1 else 0) :
    packedBits pixel_array k 8 = 0x55 := by
  have e0 : pixel_array (8 * k + 0) = 1 := by rw [h 0 (by omega), if_pos (by omega)]
  have e1 : pixel_array (8 * k + 1) = 0 := by rw [h 1 (by omega), if_neg (by omega)]
  have e2 : pixel_array (8 * k + 2) = 1 := by rw [h 2 (by omega), if_pos (by omega)]
  have e3 : pixel_array (8 * k + 3) = 0 := by rw [h 3 (by omega), if_neg (by omega)]
  have e4 : pixel_array (8 * k + 4) = 1 := by rw [h 4 (by omega), if_pos (by omega)]
  have e5 : pixel_array (8 * k + 5) = 0 := by rw [h 5 (by omega), if_neg (by omega)]
  have e6 : pixel_array (8 * k + 6) = 1 := by rw [h 6 (by omega), if_pos (by omega)]
  have e7 : pixel_array (8 * k + 7) = 0 := by rw [h 7 (by omega), if_neg (by omega)]
  simp only [packedBits, e0, e1, e2, e3, e4, e5, e6, e7]
  decide

theorem packedBits_even (pixel_array : Buffer) (k n : Nat)
    (h : ∀ j, j < n → pixel_array (8 * k + j) % 2 = 0) :
    packedBits pixel_array k n = 0 := by
  induction n with
  | zero => rfl
  | succ n ih =>
    simp only [packedBits]
    rw [ih (fun j hj => h j (by omega)), h n (by omega)]
    omega

theorem map_range_const (c v : Nat) (f : Nat → Nat) (h : ∀ k, k < c → f k = v) :
    (List.range c).map f = List.replicate c v := by
  apply List.ext_getElem?
  intro i
  by_cases hi : i < c
  · rw [List.getElem?_map, List.getElem?_range hi, List.getElem?_replicate_of_lt hi]
    simp only [Option.map_some', h i hi]
  · rw [List.getElem?_eq_none (by simp; omega), List.getElem?_eq_none (by simp; omega)]

/-- C16: for a core or info header with `8 ≤ 3 * width * height < 2 ^ 32` whose pixel bytes are
0x01 at the even indices and 0x00 at the odd ones, the block `decodeMessage` returns is made of
`3 * width * height / 8` bytes 0x55, at least one, and the terminator: every message byte is
0x55. -/
theorem decodeMessage_alternating (bitmap : bitmap_t) (uninit : Buffer)
    (htype : bitmap.dibHeader.type = 12 ∨ bitmap.dibHeader.type = 40)
    (h8 : 8 ≤ 3 * imageWidth bitmap.dibHeader * imageHeight bitmap.dibHeader)
    (hlt : 3 * imageWidth bitmap.dibHeader * imageHeight bitmap.dibHeader < 2 ^ 32)
    (halt : ∀ i, i < 3 * imageWidth bitmap.dibHeader * imageHeight bitmap.dibHeader →
      bitmap.pixel_array i = if i % 2 = 0 then 1 else 0) :
    decodeMessage bitmap uninit =
      DecodeResult.message
        (List.replicate
          (3 * imageWidth bitmap.dibHeader * imageHeight bitmap.dibHeader / 8) 0x55 ++ [0]) ∧
    0 < 3 * imageWidth bitmap.dibHeader * imageHeight bitmap.dibHeader / 8 := by
  refine ⟨?_, by omega⟩
  rw [decodeMessage_eq bitmap uninit htype, Nat.mod_eq_of_lt hlt]
  rw [map_range_const _ 0x55 _ (fun k hk =>
    packedBits_alternating bitmap.pixel_array k (fun j hj => halt _ (by omega)))]

/-- Instance of C16: the 3 by 2 bitmap `alternatingBitmap`, 18 pixel bytes, 2 message bytes. -/
theorem decodeMessage_alternating_witness :
    (alternatingBitmap.dibHeader.type = 12 ∨ alternatingBitmap.dibHeader.type = 40) ∧
    8 ≤ 3 * imageWidth alternatingBitmap.dibHeader * imageHeight alternatingBitmap.dibHeader ∧
    3 * imageWidth alternatingBitmap.dibHeader * imageHeight alternatingBitmap.dibHeader
      < 2 ^ 32 ∧
    decodeMessage alternatingBitmap (fun _ => 0xAA) = DecodeResult.message [0x55, 0x55, 0] ∧
    decodeMessage alternatingBitmap (fun _ => 0xAA) =
      DecodeResult.message
        (List.replicate
          (3 * imageWidth alternatingBitmap.dibHeader
            * imageHeight alternatingBitmap.dibHeader / 8) 0x55 ++ [0]) :=
  ⟨by decide, by decide, by decide, by decide,
   (decodeMessage_alternating alternatingBitmap (fun _ => 0xAA) (by decide) (by decide)
     (by decide) (fun _ _ => rfl)).1⟩

/-- C17: for a core or info header whose byte count `3 * width * height` is a multiple of 8, at
least 8 and below `2 ^ 32`, and whose pixel bytes are all even, `decodeMessage` stores exactly
`3 * width * height / 8` message bytes, having read all the `3 * width * height` pixel bytes,
and the block it returns is made of that many bytes 0x00 and the terminator. -/
theorem decodeMessage_all_even (bitmap : bitmap_t) (uninit : Buffer)
    (htype : bitmap.dibHeader.type = 12 ∨ bitmap.dibHeader.type = 40)
    (hdiv : 8 ∣ 3 * imageWidth bitmap.dibHeader * imageHeight bitmap.dibHeader)
    (h8 : 8 ≤ 3 * imageWidth bitmap.dibHeader * imageHeight bitmap.dibHeader)
    (hlt : 3 * imageWidth bitmap.dibHeader * imageHeight bitmap.dibHeader < 2 ^ 32)
    (heven : ∀ i, i < 3 * imageWidth bitmap.dibHeader * imageHeight bitmap.dibHeader →
      bitmap.pixel_array i % 2 = 0) :
    decodeMessage bitmap uninit =
      DecodeResult.message
        (List.replicate
          (3 * imageWidth bitmap.dibHeader * imageHeight bitmap.dibHeader / 8) 0x00 ++ [0]) ∧
    (∃ s, decodeFinalState bitmap uninit = some s ∧
      s.cCounter = 3 * imageWidth bitmap.dibHeader * imageHeight bitmap.dibHeader / 8 ∧
      s.bCounter = 3 * imageWidth bitmap.dibHeader * imageHeight bitmap.dibHeader) ∧
    0 < 3 * imageWidth bitmap.dibHeader * imageHeight bitmap.dibHeader / 8 := by
  refine ⟨?_, ?_, by omega⟩
  · rw [decodeMessage_eq bitmap uninit htype, Nat.mod_eq_of_lt hlt]
    rw [map_range_const _ 0 _ (fun k hk =>
      packedBits_even bitmap.pixel_array k 8 (fun j hj => heven _ (by omega)))]
  · obtain ⟨s, hs, _, hinv, hc⟩ := decodeFinalState_spec bitmap uninit htype
    rw [Nat.mod_eq_of_lt hlt] at hinv hc
    refine ⟨s, hs, hc, ?_⟩
    rw [decodeInv_bCounter_eq hinv hc]
    exact Nat.mul_div_cancel' hdiv

/-- Instance of C17: the 8 by 1 bitmap `evenBitmap`: 24 even pixel bytes, 3 message bytes. -/
theorem decodeMessage_all_even_witness :
    (evenBitmap.dibHeader.type = 12 ∨ evenBitmap.dibHeader.type = 40) ∧
    8 ∣ 3 * imageWidth evenBitmap.dibHeader * imageHeight evenBitmap.dibHeader ∧
    8 ≤ 3 * imageWidth evenBitmap.dibHeader * imageHeight evenBitmap.dibHeader ∧
    3 * imageWidth evenBitmap.dibHeader * imageHeight evenBitmap.dibHeader < 2 ^ 32 ∧
    decodeMessage evenBitmap (fun _ => 0xAA) = DecodeResult.message [0, 0, 0, 0] ∧
    decodeMessage evenBitmap (fun _ => 0xAA) =
      DecodeResult.message
        (List.replicate
          (3 * imageWidth evenBitmap.dibHeader * imageHeight evenBitmap.dibHeader / 8) 0x00
          ++ [0]) :=
  ⟨by decide, by decide, by decide, by decide, by decide,
   (decodeMessage_all_even evenBitmap (fun _ => 0xAA) (by decide) (by decide) (by decide)
     (by decide) (fun i _ => by
       show 2 * i % 256 % 2 = 0
       omega)).1⟩

/-- C18: the 2 by 1 info-header bitmap with 1 plane, 24 bits per pixel, no compression, no
palette and the pixel bytes 01 00 00 00 00 01 passes `isDecodeable`; `decodeMessage` computes
`byteCount = 6` and `charCount = 0`, its loop ends before the first pass (no message byte
stored, no pixel byte read: `cCounter` and `bCounter` stay 0), and the block it returns holds
the terminator only, the empty string, whatever the pixel buffer holds. -/
theorem decodeMessage_tinyBitmap :
    isDecodeable tinyBitmap = 1 ∧
    decodeCounts tinyBitmap.dibHeader = some (6, 0) ∧
    (∀ uninit : Buffer, decodeFinalState tinyBitmap uninit =
      some { str := [0], tempChar := 0, cCounter := 0, bit := 0, bCounter := 0 }) ∧
    (∀ uninit : Buffer, decodeMessage tinyBitmap uninit = DecodeResult.message [0]) ∧
    (∀ pixels uninit : Buffer,
      decodeMessage { tinyBitmap with pixel_array := pixels } uninit
        = DecodeResult.message [0]) := by
  refine ⟨by decide, by decide, ?_, ?_, ?_⟩
  · intro uninit; rfl
  · intro uninit; rfl
  · intro pixels uninit
    have hcount : (3 * imageWidth tinyBitmap.dibHeader * imageHeight tinyBitmap.dibHeader)
        % 2 ^ 32 / 8 = 0 := by decide
    rw [decodeMessage_eq { tinyBitmap with pixel_array := pixels } uninit (Or.inr rfl)]
    show DecodeResult.message
      ((List.range ((3 * imageWidth tinyBitmap.dibHeader * imageHeight tinyBitmap.dibHeader)
        % 2 ^ 32 / 8)).map (fun k => packedBits pixels k 8) ++ [0]) = DecodeResult.message [0]
    rw [hcount]
    rfl

/-- C19, evaluated: for the declared sizes 16, 52, 56, 64, 108 and 124 `parseDIBHeader` returns
`-1`, that is 4294967295, where its documentation says 0. -/
theorem parseDIBHeader_returns_minus_one :
    (parseDIBHeader (bufferOfList infoBytes) (sub32 16 4) zeroDibHeader).1 = 4294967295 ∧
    (parseDIBHeader (bufferOfList infoBytes) (sub32 52 4) zeroDibHeader).1 = 4294967295 ∧
    (parseDIBHeader (bufferOfList infoBytes) (sub32 56 4) zeroDibHeader).1 = 4294967295 ∧
    (parseDIBHeader (bufferOfList infoBytes) (sub32 64 4) zeroDibHeader).1 = 4294967295 ∧
    (parseDIBHeader (bufferOfList infoBytes) (sub32 108 4) zeroDibHeader).1 = 4294967295 ∧
    (parseDIBHeader (bufferOfList infoBytes) (sub32 124 4) zeroDibHeader).1 = 4294967295 ∧
    (parseDIBHeader (bufferOfList infoBytes) (sub32 16 4) zeroDibHeader).1 ≠ 0 := by
  decide

/-- C20, evaluated: `ciBitmap` has an info header with 1 colour plane, 24 bits per pixel, no
compression and no palette, and the signature `CI` of `bmpconstants.h`; `isDecodeable` returns
0 for it, and 1 once the signature is `BM`. -/
theorem isDecodeable_rejects_other_signature :
    ciBitmap.bmpFileHeader.signature = 0x4349 ∧
    ciBitmap.dibHeader.type = 40 ∧
    ciBitmap.dibHeader.header.bitMapInfoHeader.color_planes = 1 ∧
    ciBitmap.dibHeader.header.bitMapInfoHeader.bits_per_pixel = 24 ∧
    ciBitmap.dibHeader.header.bitMapInfoHeader.compression_method = 0 ∧
    ciBitmap.dibHeader.header.bitMapInfoHeader.color_palette = 0 ∧
    isDecodeable ciBitmap = 0 ∧
    isDecodeable { ciBitmap with bmpFileHeader := tinyBitmap.bmpFileHeader } = 1 := by
  decide

/-- Whatever the headers hold, a signature other than `BM` makes `isDecodeable` return 0. -/
theorem isDecodeable_signature (bitmap : bitmap_t) (h : bitmap.bmpFileHeader.signature ≠ 0x424D) :
    isDecodeable bitmap = 0 := by
  unfold isDecodeable
  rw [if_pos (show bitmap.bmpFileHeader.signature ≠ BM from h)]

/-! ## The returned header size and the variant tag -/

/-- C24: on a buffer whose eighteen entries are bytes, the header size `parseBMPFileHeader`
returns is the bitwise or of the bytes 14, 15, 16 and 17, so it is below 256; and when the bytes
15, 16 and 17 are zero it is the little-endian value of the four bytes. -/
theorem parseBMPFileHeader_size_is_or (buffer : Buffer) (bmpFileHeader : bmpFileHeader_t)
    (hbytes : ∀ i, i < 18 → buffer i < 256) :
    (parseBMPFileHeader buffer bmpFileHeader).1
      = buffer 14 ||| buffer 15 ||| buffer 16 ||| buffer 17 ∧
    (parseBMPFileHeader buffer bmpFileHeader).1 < 256 ∧
    (buffer 15 = 0 → buffer 16 = 0 → buffer 17 = 0 →
      (parseBMPFileHeader buffer bmpFileHeader).1
        = buffer 14 + 256 * buffer 15 + 65536 * buffer 16 + 16777216 * buffer 17) := by
  have h14 := hbytes 14 (by omega)
  have h15 := hbytes 15 (by omega)
  have h16 := hbytes 16 (by omega)
  have h17 := hbytes 17 (by omega)
  have hlt : buffer 17 ||| buffer 16 ||| buffer 15 ||| buffer 14 < 2 ^ 8 :=
    Nat.or_lt_two_pow (Nat.or_lt_two_pow (Nat.or_lt_two_pow h17 h16) h15) h14
  have hret : (parseBMPFileHeader buffer bmpFileHeader).1
      = buffer 17 ||| buffer 16 ||| buffer 15 ||| buffer 14 := by
    show (buffer 17 ||| buffer 16 ||| buffer 15 ||| buffer 14) % 2 ^ 32 = _
    exact Nat.mod_eq_of_lt (by omega)
  refine ⟨?_, ?_, ?_⟩
  · rw [hret, Nat.or_comm (buffer 17 ||| buffer 16 ||| buffer 15) (buffer 14),
      Nat.or_comm (buffer 17 ||| buffer 16) (buffer 15), Nat.or_comm (buffer 17) (buffer 16),
      ← Nat.or_assoc, ← Nat.or_assoc]
  · rw [hret]; exact hlt
  · intro e15 e16 e17
    rw [hret, e15, e16, e17]
    simp only [Nat.or_self, Nat.zero_or, Nat.mul_zero, Nat.add_zero]

/-- Instance of C24: the size fields 28 00 00 00 and 0C 00 00 00 are returned as 40 and 12. -/
theorem parseBMPFileHeader_size_is_or_witness :
    (∀ i, i < 18 → bufferOfList infoFile i < 256) ∧
    (parseBMPFileHeader (bufferOfList infoFile) zeroFileHeader).1 = 40 ∧
    (parseBMPFileHeader (bufferOfList coreSizeField) zeroFileHeader).1 = 12 ∧
    (parseBMPFileHeader (bufferOfList infoFile) zeroFileHeader).1
      = bufferOfList infoFile 14 ||| bufferOfList infoFile 15 ||| bufferOfList infoFile 16
        ||| bufferOfList infoFile 17 ∧
    (parseBMPFileHeader (bufferOfList infoFile) zeroFileHeader).1 < 256 :=
  ⟨by decide, by decide, by decide,
   (parseBMPFileHeader_size_is_or (bufferOfList infoFile) zeroFileHeader (by decide)).1,
   (parseBMPFileHeader_size_is_or (bufferOfList infoFile) zeroFileHeader (by decide)).2.1⟩

/-- C21, evaluated.  `os2File` declares the size 16; read into a struct that holds the stale
type 40, `readBitmapFile` returns 1 and the type is still 40 (the `-1` of `parseDIBHeader` is
not taken for a failure).  `orFile` declares the size 1032 in little-endian; the or of its size
bytes is 12, so `readBitmapFile` parses a core header, returns 1 and leaves the type 12 with
header size 12. -/
theorem readBitmapFile_type_disagrees :
    bufferOfList os2File 14 + 256 * bufferOfList os2File 15 + 65536 * bufferOfList os2File 16
      + 16777216 * bufferOfList os2File 17 = 16 ∧
    (readBitmapFile (fopen os2File) staleBitmap (fun _ => 0)).1 = 1 ∧
    (readBitmapFile (fopen os2File) staleBitmap (fun _ => 0)).2.2.dibHeader.type = 40 ∧
    bufferOfList orFile 14 + 256 * bufferOfList orFile 15 + 65536 * bufferOfList orFile 16
      + 16777216 * bufferOfList orFile 17 = 1032 ∧
    (readBitmapFile (fopen orFile) zeroBitmap (fun _ => 0)).1 = 1 ∧
    (readBitmapFile (fopen orFile) zeroBitmap (fun _ => 0)).2.2.dibHeader.type = 12 ∧
    (readBitmapFile (fopen orFile) zeroBitmap
      (fun _ => 0)).2.2.dibHeader.header.bitMapCoreHeader.header_size = 12 := by
  decide

/-- Where tag and declared size do agree: on a file whose size field declares 12 or 40 in
little-endian and that holds the whole DIB header, `readBitmapFile` returns 1 and leaves the
declared size both as the type and as the header size of the member it filled. -/
theorem readBitmapFile_type_agrees (data : List Nat) (bitmap : bitmap_t) (uninit : Buffer)
    (declared : Nat) (hdecl : declared = 12 ∨ declared = 40)
    (hsize : bufferOfList data 14 + 256 * bufferOfList data 15 + 65536 * bufferOfList data 16
      + 16777216 * bufferOfList data 17 = declared)
    (hfull : 14 + declared ≤ data.length) :
    (readBitmapFile (fopen data) bitmap uninit).1 = 1 ∧
    (readBitmapFile (fopen data) bitmap uninit).2.2.dibHeader.type = declared ∧
    (declared = 12 →
      (readBitmapFile (fopen data) bitmap
        uninit).2.2.dibHeader.header.bitMapCoreHeader.header_size = 12) ∧
    (declared = 40 →
      (readBitmapFile (fopen data) bitmap
        uninit).2.2.dibHeader.header.bitMapInfoHeader.header_size = 40) := by
  have hp := parseDIBHeader_supported (fun i => bufferOfList data (18 + i)) declared
    bitmap.dibHeader hdecl
  obtain ⟨size, hsz⟩ : ∃ size, pixelArraySize
      (parseDIBHeader (fun i => bufferOfList data (18 + i)) (declared - 4) bitmap.dibHeader).2
        = some size := by
    rcases hdecl with h | h
    · exact pixelArraySize_core _ (by rw [hp.2, h])
    · exact pixelArraySize_info _ (by rw [hp.2, h])
  rw [readBitmapFile_eq data bitmap uninit declared hdecl hsize hfull size hsz]
  refine ⟨rfl, hp.2, ?_, ?_⟩
  · intro h
    subst h
    show (parseDIBHeader (fun i => bufferOfList data (18 + i)) 8
      bitmap.dibHeader).2.header.bitMapCoreHeader.header_size = 12
    rw [parseDIBHeader_eight]
    rfl
  · intro h
    subst h
    show (parseDIBHeader (fun i => bufferOfList data (18 + i)) 36
      bitmap.dibHeader).2.header.bitMapInfoHeader.header_size = 40
    rw [parseDIBHeader_thirtysix]
    rfl

/-! ## Row padding -/

/-- The `pixel_array_size` of `readBitmapFile` for either supported header when nothing
overflows, with the rounding written as in the source. -/
theorem pixelArraySize_rounded (d : dibHeader_t) (htype : d.type = 12 ∨ d.type = 40)
    (h1 : imageBitsPerPixel d * imageWidth d + 31 < sizeArithBound d)
    (h2 : (imageBitsPerPixel d * imageWidth d + 31) / 32 * 4 * imageHeight d
      < sizeArithBound d) :
    pixelArraySize d =
      some ((imageBitsPerPixel d * imageWidth d + 31) / 32 * 4 * imageHeight d) := by
  unfold imageBitsPerPixel imageWidth imageHeight sizeArithBound at *
  simp only [BITMAPCOREHEADER] at *
  rcases htype with h | h
  · simp only [if_pos h] at h1 h2 ⊢
    exact pixelArraySize_core_exact d h h1 h2
  · have h12 : ¬ d.type = 12 := by rw [h]; decide
    simp only [if_neg h12] at h1 h2 ⊢
    exact pixelArraySize_info_exact d h h1 h2

theorem sizeArithBound_le (d : dibHeader_t) : sizeArithBound d ≤ 2 ^ 32 := by
  unfold sizeArithBound
  split <;> decide

/-- A row of `w` pixels of 3 bytes, rounded up to a multiple of 4 bytes, is at least `3 * w`
bytes long, and exactly that long when `3 * w` is a multiple of 4. -/
theorem row_bytes (w : Nat) :
    3 * w ≤ (24 * w + 31) / 32 * 4 ∧ ((24 * w + 31) / 32 * 4 = 3 * w ↔ 4 ∣ 3 * w) := by
  constructor
  · omega
  · rw [Nat.dvd_iff_mod_eq_zero]
    omega

/-- C22: for a core or info header with 24 bits per pixel, height at least 1 and no overflow
in the 32-bit computations, the byte count `3 * w * h` of `decodeMessage` equals the
`pixel_array_size` = `ceil(24 * w / 32) * 4 * h` of `readBitmapFile` exactly when `3 * w` is a
multiple of 4, and is strictly smaller otherwise. -/
theorem byteCount_eq_pixelArraySize_iff (d : dibHeader_t) (htype : d.type = 12 ∨ d.type = 40)
    (hbpp : imageBitsPerPixel d = 24) (hh : 1 ≤ imageHeight d)
    (h1 : 24 * imageWidth d + 31 < sizeArithBound d)
    (h2 : Nat.ceil (((24 * imageWidth d : Nat) : ℚ) / 32) * 4 * imageHeight d
      < sizeArithBound d) :
    decodeCounts d
      = some (3 * imageWidth d * imageHeight d, 3 * imageWidth d * imageHeight d / 8) ∧
    pixelArraySize d
      = some (Nat.ceil (((24 * imageWidth d : Nat) : ℚ) / 32) * 4 * imageHeight d) ∧
    (3 * imageWidth d * imageHeight d
        = Nat.ceil (((24 * imageWidth d : Nat) : ℚ) / 32) * 4 * imageHeight d
      ↔ 4 ∣ 3 * imageWidth d) ∧
    (¬ 4 ∣ 3 * imageWidth d →
      3 * imageWidth d * imageHeight d
        < Nat.ceil (((24 * imageWidth d : Nat) : ℚ) / 32) * 4 * imageHeight d) := by
  rw [ceil_div32] at h2 ⊢
  obtain ⟨hrow, hiff⟩ := row_bytes (imageWidth d)
  have hb := sizeArithBound_le d
  have hle : 3 * imageWidth d * imageHeight d
      ≤ (24 * imageWidth d + 31) / 32 * 4 * imageHeight d := Nat.mul_le_mul_right _ hrow
  have hpos : 0 < imageHeight d := hh
  refine ⟨?_, ?_, ?_, ?_⟩
  · rw [decodeCounts_supported d htype, Nat.mod_eq_of_lt (by omega)]
  · have := pixelArraySize_rounded d htype (by rw [hbpp]; exact h1) (by rw [hbpp]; exact h2)
    rw [hbpp] at this
    exact this
  · rw [← hiff]
    constructor
    · intro h
      exact (Nat.eq_of_mul_eq_mul_right hpos h).symm
    · intro h
      rw [h]
  · intro hnd
    have hne : (24 * imageWidth d + 31) / 32 * 4 ≠ 3 * imageWidth d := fun h => hnd (hiff.1 h)
    exact Nat.mul_lt_mul_of_pos_right (by omega) hpos

/-- Instance of C22: the 2 by 1 info header (`3 * w` = 6, padded rows: 6 < 8) and the 8 by 1
info header of `evenBitmap` (`3 * w` = 24, no padding: 24 = 24). -/
theorem byteCount_eq_pixelArraySize_iff_witness :
    (infoDibHeader.type = 12 ∨ infoDibHeader.type = 40) ∧
    imageBitsPerPixel infoDibHeader = 24 ∧ 1 ≤ imageHeight infoDibHeader ∧
    24 * imageWidth infoDibHeader + 31 < sizeArithBound infoDibHeader ∧
    decodeCounts infoDibHeader = some (6, 0) ∧ pixelArraySize infoDibHeader = some 8 ∧
    ¬ 4 ∣ 3 * imageWidth infoDibHeader ∧
    3 * imageWidth infoDibHeader * imageHeight infoDibHeader
      < Nat.ceil (((24 * imageWidth infoDibHeader : Nat) : ℚ) / 32) * 4
          * imageHeight infoDibHeader ∧
    decodeCounts evenBitmap.dibHeader = some (24, 3) ∧
    pixelArraySize evenBitmap.dibHeader = some 24 ∧
    (3 * imageWidth evenBitmap.dibHeader * imageHeight evenBitmap.dibHeader
        = Nat.ceil (((24 * imageWidth evenBitmap.dibHeader : Nat) : ℚ) / 32) * 4
            * imageHeight evenBitmap.dibHeader
      ↔ 4 ∣ 3 * imageWidth evenBitmap.dibHeader) :=
  ⟨by decide, by decide, by decide, by decide, by decide, by decide, by decide,
   (byteCount_eq_pixelArraySize_iff infoDibHeader (by decide) (by decide) (by decide)
     (by decide) (by rw [ceil_div32]; decide)).2.2.2 (by decide),
   by decide, by decide,
   (byteCount_eq_pixelArraySize_iff evenBitmap.dibHeader (by decide) (by decide) (by decide)
     (by decide) (by rw [ceil_div32]; decide)).2.2.1⟩

/-! ## The indices the decoder uses -/

end ImageSteganography
